import Mathlib

/-!
# servico-estoque: stock ledger and reservation coordinator

Shallow embedding of `internal/domain`, `internal/repository/produto_repository.go`,
`pkg/lock/distributed_lock.go` and the reservation part of
`internal/service/estoque_service.go`.

Modelling conventions:

* Go `int` is a 64-bit two's complement integer: values are `Int` and every `+`/`-` of the
  source goes through `wrapInt`.
* `uuid.UUID` is an opaque identity (`Nat`); the zero UUID is `0`.
* The two tables (`produtos`, `reserva_estoques`) are lists of rows; a `gorm` transaction
  that returns an error is rolled back, i.e. the database is the one before the call.
* `autoCreateTime`/`autoUpdateTime` columns are bookkeeping and are left out.
* A query without `ORDER BY` returns the rows in table order.
* Values drawn at run time (`uuid.New()`, `gen_random_uuid()`, `time.Now()`) are explicit
  arguments.
* The shared key-value store answers every command; its keys are kept by family (`lock:*`,
  `reserva:*`, `produtos:*`), and the JSON text of a result stands for the result itself.
-/

namespace Estoque

/-! ## internal/domain -/

/-- Identity values of type `uuid.UUID`. -/
abbrev UUID := Nat

/-- Result of a Go `int` operation whose mathematical value is `x` (64-bit wrap-around). -/
def wrapInt (x : Int) : Int :=
  (x + 9223372036854775808) % 18446744073709551616 - 9223372036854775808

/-- Range of a Go `int`. -/
def isInt (x : Int) : Prop := -9223372036854775808 ≤ x ∧ x < 9223372036854775808

instance (x : Int) : Decidable (isInt x) := by unfold isInt; infer_instance

/-- Row of table `produtos` (`domain.Produto`). -/
structure Produto where
  ID : UUID
  Codigo : String
  Descricao : String
  Saldo : Int
  Reservado : Int
  deriving DecidableEq, Repr

/-- `Produto.PodeReservar`: `p.Saldo-p.Reservado >= quantidade`. -/
def Produto.PodeReservar (p : Produto) (quantidade : Int) : Bool :=
  decide (quantidade ≤ wrapInt (p.Saldo - p.Reservado))

/-- Row of table `reserva_estoques` (`domain.ReservaEstoque`). `Status` is a Go string. -/
structure ReservaEstoque where
  ID : UUID
  ProdutoID : UUID
  NotaFiscalID : UUID
  Quantidade : Int
  Status : String
  ExpiresAt : Nat
  deriving DecidableEq, Repr

/-- Request item `domain.ItemReserva`. -/
structure ItemReserva where
  ProdutoID : UUID
  Quantidade : Int
  deriving DecidableEq, Repr

/-- Result value `domain.ReservaResult`. -/
structure ReservaResult where
  ReservaID : UUID
  Reservas : List ReservaEstoque
  Mensagem : String
  deriving DecidableEq, Repr

/-- Request `domain.ReservarEstoqueRequest`. -/
structure ReservarEstoqueRequest where
  NotaFiscalID : UUID
  Itens : List ItemReserva
  deriving DecidableEq, Repr

/-- Request `domain.CriarProdutoRequest`. -/
structure CriarProdutoRequest where
  Codigo : String
  Descricao : String
  Saldo : Int
  deriving DecidableEq, Repr

/-- Error values: the sentinels of `internal/domain/errors.go`, `gorm.ErrRecordNotFound`,
a primary-key violation reported by the record store, and errors built with `fmt.Errorf`. -/
inductive Erro where
  | ErrProdutoNaoEncontrado
  | ErrCodigoDuplicado
  | ErrEstoqueInsuficiente
  | ErrReservaNaoEncontrada
  | ErrReservaExpirada
  | ErrReservaJaConfirmada
  | ErrReservaJaCancelada
  | ErrSaldoNegativo
  | ErrQuantidadeInvalida
  | ErrDadosInvalidos
  | ErrOperacaoNaoPermitida
  | ErrRecordNotFound
  | ErrDuplicatedKey
  | Errorf (msg : String)
  deriving DecidableEq, Repr

/-- Text of an error value (`err.Error()`). -/
def Erro.Error : Erro → String
  | .ErrProdutoNaoEncontrado => "produto não encontrado"
  | .ErrCodigoDuplicado => "código já existe"
  | .ErrEstoqueInsuficiente => "estoque insuficiente"
  | .ErrReservaNaoEncontrada => "reserva não encontrada"
  | .ErrReservaExpirada => "reserva expirada"
  | .ErrReservaJaConfirmada => "reserva já confirmada"
  | .ErrReservaJaCancelada => "reserva já cancelada"
  | .ErrSaldoNegativo => "saldo não pode ser negativo"
  | .ErrQuantidadeInvalida => "quantidade deve ser maior que zero"
  | .ErrDadosInvalidos => "dados inválidos"
  | .ErrOperacaoNaoPermitida => "operação não permitida"
  | .ErrRecordNotFound => "record not found"
  | .ErrDuplicatedKey => "duplicated key not allowed"
  | .Errorf msg => msg

deriving instance DecidableEq for Except

/-! ## internal/repository: the record store and the four ledger transactions -/

/-- Persisted state: the two tables. -/
structure DB where
  produtos : List Produto
  reservas : List ReservaEstoque
  deriving DecidableEq, Repr

/-- `tx.First(&p, "id = ?", id)`. -/
def DB.firstProduto (db : DB) (id : UUID) : Option Produto :=
  db.produtos.find? (fun p => p.ID = id)

/-- `tx.Save(&p)`: update of the row whose primary key is `p.ID`. -/
def DB.saveProduto (db : DB) (p : Produto) : DB :=
  { db with produtos := db.produtos.map (fun x => if x.ID = p.ID then p else x) }

/-- `tx.Save(&r)`: update of the row whose primary key is `r.ID`. -/
def DB.saveReserva (db : DB) (r : ReservaEstoque) : DB :=
  { db with reservas := db.reservas.map (fun x => if x.ID = r.ID then r else x) }

/-- `tx.Where("nota_fiscal_id = ? AND status = 'PENDENTE'", notaID).Find(&reservas)`. -/
def DB.pendentes (db : DB) (notaID : UUID) : List ReservaEstoque :=
  db.reservas.filter (fun r => r.NotaFiscalID = notaID ∧ r.Status = "PENDENTE")

/-- The row `tx.Create(reserva)` inserts: a zero `ID` takes the generated `novoID`
(`default:gen_random_uuid()`), an empty `Status` takes `default:'PENDENTE'`. -/
def criada (reserva : ReservaEstoque) (novoID : UUID) : ReservaEstoque :=
  { reserva with
    ID := if reserva.ID = 0 then novoID else reserva.ID
    Status := if reserva.Status = "" then "PENDENTE" else reserva.Status }

/-- Body of the transaction of `produtoRepository.ReservarEstoque`; on success also the
row as written back into `*reserva`. -/
def reservarEstoqueTx (db : DB) (reserva : ReservaEstoque) (novoID : UUID) :
    Except Erro (DB × ReservaEstoque) :=
  match db.firstProduto reserva.ProdutoID with
  | none => .error .ErrRecordNotFound
  | some p =>
    if !p.PodeReservar reserva.Quantidade then .error .ErrEstoqueInsuficiente
    else
      let p1 := { p with Reservado := wrapInt (p.Reservado + reserva.Quantidade) }
      let db1 := db.saveProduto p1
      let r := criada reserva novoID
      if db1.reservas.any (fun x => x.ID = r.ID) then .error .ErrDuplicatedKey
      else .ok ({ db1 with reservas := db1.reservas ++ [r] }, r)

/-- `produtoRepository.ReservarEstoque`: the database after the call, `*reserva` after the
call, and the returned error. -/
def produtoRepository.ReservarEstoque (db : DB) (reserva : ReservaEstoque) (novoID : UUID) :
    DB × ReservaEstoque × Option Erro :=
  match reservarEstoqueTx db reserva novoID with
  | .ok (db1, r) => (db1, r, none)
  | .error e => (db, reserva, some e)

/-- Loop of `produtoRepository.ConfirmarReserva` over the rows found. -/
def confirmarLoop : List ReservaEstoque → DB → Except Erro DB
  | [], db => .ok db
  | r :: rs, db =>
    match db.firstProduto r.ProdutoID with
    | none => .error .ErrRecordNotFound
    | some p =>
      let p1 := { p with
        Saldo := wrapInt (p.Saldo - r.Quantidade)
        Reservado := wrapInt (p.Reservado - r.Quantidade) }
      if p1.Saldo < 0 then .error .ErrSaldoNegativo
      else confirmarLoop rs ((db.saveProduto p1).saveReserva { r with Status := "CONFIRMADO" })

/-- `produtoRepository.ConfirmarReserva`. -/
def produtoRepository.ConfirmarReserva (db : DB) (notaID : UUID) : DB × Option Erro :=
  match confirmarLoop (db.pendentes notaID) db with
  | .ok db1 => (db1, none)
  | .error e => (db, some e)

/-- Loop of `produtoRepository.CancelarReserva` over the rows found. -/
def cancelarLoop : List ReservaEstoque → DB → Except Erro DB
  | [], db => .ok db
  | r :: rs, db =>
    match db.firstProduto r.ProdutoID with
    | none => .error .ErrRecordNotFound
    | some p =>
      let res := wrapInt (p.Reservado - r.Quantidade)
      let p1 := { p with Reservado := if res < 0 then 0 else res }
      cancelarLoop rs ((db.saveProduto p1).saveReserva { r with Status := "CANCELADO" })

/-- `produtoRepository.CancelarReserva`. -/
def produtoRepository.CancelarReserva (db : DB) (notaID : UUID) : DB × Option Erro :=
  match cancelarLoop (db.pendentes notaID) db with
  | .ok db1 => (db1, none)
  | .error e => (db, some e)

/-- `produtoRepository.BaixarEstoque`. -/
def produtoRepository.BaixarEstoque (db : DB) (produtoID : UUID) (qtd : Int) :
    DB × Option Erro :=
  match db.firstProduto produtoID with
  | none => (db, some .ErrRecordNotFound)
  | some p =>
    if p.Saldo < qtd then (db, some .ErrEstoqueInsuficiente)
    else (db.saveProduto { p with Saldo := wrapInt (p.Saldo - qtd) }, none)

/-! ## pkg/lock: the lock manager over the shared key-value store

The key-value store is taken to answer every command (no transport error) and no key
expires during a call. -/

/-- Go `time.Duration` units, in nanoseconds. -/
def Second : Nat := 1000000000

/-- Sixty seconds. -/
def Minute : Nat := 60 * Second

/-- Sixty minutes. -/
def Hour : Nat := 60 * Minute

/-- Key of the lock keyspace: key, stored token, time-to-live. -/
structure LockEntry where
  key : String
  value : String
  ttl : Nat
  deriving DecidableEq, Repr

/-- Lock keyspace of the shared store. -/
abbrev LockStore := List LockEntry

/-- `GET key`. -/
def LockStore.get (s : LockStore) (key : String) : Option String :=
  (s.find? (fun e => e.key = key)).map (fun e => e.value)

/-- `SET key value NX PX ttl`: creates the key only when it is absent. -/
def LockStore.setNX (s : LockStore) (key value : String) (ttl : Nat) : LockStore × Bool :=
  match s.get key with
  | some _ => (s, false)
  | none => (s ++ [{ key := key, value := value, ttl := ttl }], true)

/-- `DEL key`. -/
def LockStore.del (s : LockStore) (key : String) : LockStore :=
  s.filter (fun e => e.key ≠ key)

/-- `DistributedLock.AcquireLock`; `lockValue` is the value of `uuid.New().String()`. -/
def DistributedLock.AcquireLock (s : LockStore) (resource : String) (ttl : Nat)
    (lockValue : String) : LockStore × Except Erro String :=
  let lockKey := "lock:" ++ resource
  match s.setNX lockKey lockValue ttl with
  | (s1, false) => (s1, .error (.Errorf ("lock já adquirido por outro processo: " ++ resource)))
  | (s1, true) => (s1, .ok lockValue)

/-- `DistributedLock.ReleaseLock`: the script deletes the key only when the stored value is
the presented one. -/
def DistributedLock.ReleaseLock (s : LockStore) (resource lockValue : String) :
    LockStore × Option Erro :=
  let lockKey := "lock:" ++ resource
  if s.get lockKey = some lockValue then (s.del lockKey, none)
  else (s, some (.Errorf "lock não pertence a este cliente ou já expirou"))

/-! ## internal/service: the reservation coordinator -/

/-- Keys of the cache keyspace, by the format string that builds them. -/
inductive CacheKey where
  /-- Key built by `reserva:%s` from a grouping id. -/
  | reserva (notaFiscalID : UUID)
  /-- Key built by `produtos:%s` and `produtos:list`. -/
  | produtos (sufixo : String)
  deriving DecidableEq, Repr

/-- Text stored under a cache key: the JSON of a `ReservaResult`, or any other text (which
`json.Unmarshal` into a `ReservaResult` rejects). -/
inductive Cached where
  | resultJSON (r : ReservaResult)
  | texto (s : String)
  deriving DecidableEq, Repr

/-- Key of the cache keyspace: key, stored text, time-to-live. -/
structure CacheEntry where
  key : CacheKey
  value : Cached
  ttl : Nat
  deriving DecidableEq, Repr

/-- Cache keyspace of the shared store. -/
abbrev Cache := List CacheEntry

/-- `GET key` (and `EXISTS key` as `isSome`). -/
def Cache.get (c : Cache) (key : CacheKey) : Option Cached :=
  (c.find? (fun e => e.key = key)).map (fun e => e.value)

/-- `SET key value EX ttl`. -/
def Cache.set (c : Cache) (key : CacheKey) (value : Cached) (ttl : Nat) : Cache :=
  c.filter (fun e => e.key ≠ key) ++ [{ key := key, value := value, ttl := ttl }]

/-- Call made to a collaborator, recorded in order (observation only: nothing reads it). -/
inductive Evento where
  | acquire (resource : String) (ok : Bool)
  | release (resource : String) (ok : Bool)
  | reservar (produtoID : UUID) (quantidade : Int) (ok : Bool)
  | confirmar (id : UUID) (ok : Bool)
  | cancelar (id : UUID) (ok : Bool)
  | baixar (produtoID : UUID) (quantidade : Int) (ok : Bool)
  deriving DecidableEq, Repr

/-- Everything a service call can read or change. -/
structure World where
  db : DB
  locks : LockStore
  cache : Cache
  trace : List Evento
  deriving DecidableEq, Repr

/-- Values drawn while one item is processed. -/
structure Sorteio where
  /-- Value of `uuid.New().String()` inside `DistributedLock.AcquireLock`. -/
  lockValue : String
  /-- Value of `gen_random_uuid()` for the inserted row. -/
  reservaID : UUID
  /-- Value of `time.Now()`. -/
  agora : Nat
  deriving DecidableEq, Repr

/-- Text form `id.String()`. -/
def uuidString (id : UUID) : String := toString id

/-- `EstoqueService.invalidateCache(ctx, "produtos:*")`: `KEYS` then `DEL`. -/
def EstoqueService.invalidateCache (c : Cache) : Cache :=
  c.filter (fun e => match e.key with
    | .produtos _ => false
    | .reserva _ => true)

/-- `EstoqueService.cancelarReservasAnteriores`: the error of each call is only logged. -/
def EstoqueService.cancelarReservasAnteriores (w : World) : List ReservaEstoque → World
  | [] => w
  | reserva :: rest =>
    match produtoRepository.CancelarReserva w.db reserva.ID with
    | (db1, err) =>
      EstoqueService.cancelarReservasAnteriores
        { w with db := db1, trace := w.trace ++ [.cancelar reserva.ID err.isNone] } rest

/-- The `acquire` step of an item, with its record. -/
def World.acquire (w : World) (resource : String) (ttl : Nat) (lockValue : String) :
    World × Except Erro String :=
  match DistributedLock.AcquireLock w.locks resource ttl lockValue with
  | (s1, .ok v) => ({ w with locks := s1, trace := w.trace ++ [.acquire resource true] }, .ok v)
  | (s1, .error e) =>
    ({ w with locks := s1, trace := w.trace ++ [.acquire resource false] }, .error e)

/-- The `release` step of an item, with its record; the returned error is dropped by the
callers. -/
def World.release (w : World) (resource lockValue : String) : World :=
  match DistributedLock.ReleaseLock w.locks resource lockValue with
  | (s1, err) => { w with locks := s1, trace := w.trace ++ [.release resource err.isNone] }

/-- The value `&domain.ReservaEstoque{...}` built for an item in `EstoqueService.ReservarProdutos`. -/
def novaReserva (notaFiscalID : UUID) (item : ItemReserva) (agora : Nat) : ReservaEstoque :=
  { ID := 0
    ProdutoID := item.ProdutoID
    NotaFiscalID := notaFiscalID
    Quantidade := item.Quantidade
    Status := ""
    ExpiresAt := agora + 10 * Minute }

/-- The loop `for _, item := range req.Itens` of `EstoqueService.ReservarProdutos`; `i` counts the items
done, `reservas` is the rollback list. -/
def reservarItens (notaFiscalID : UUID) (rnd : Nat → Sorteio) :
    List ItemReserva → Nat → World → List ReservaEstoque →
      World × Except Erro (List ReservaEstoque)
  | [], _, w, reservas => (w, .ok reservas)
  | item :: itens, i, w, reservas =>
    let lockKey := "produto:" ++ uuidString item.ProdutoID
    match w.acquire lockKey (10 * Second) (rnd i).lockValue with
    | (w1, .error _) =>
      (EstoqueService.cancelarReservasAnteriores w1 reservas,
        .error (.Errorf "produto está sendo processado simultaneamente"))
    | (w1, .ok lockValue) =>
      match produtoRepository.ReservarEstoque w1.db (novaReserva notaFiscalID item (rnd i).agora)
          (rnd i).reservaID with
      | (db1, _, some err) =>
        let w2 : World := { w1 with
          db := db1
          trace := w1.trace ++ [.reservar item.ProdutoID item.Quantidade false] }
        let w3 := w2.release lockKey lockValue
        (EstoqueService.cancelarReservasAnteriores w3 reservas, .error err)
      | (db1, reserva, none) =>
        let w2 : World := { w1 with
          db := db1
          trace := w1.trace ++ [.reservar item.ProdutoID item.Quantidade true] }
        let w3 := w2.release lockKey lockValue
        reservarItens notaFiscalID rnd itens (i + 1) w3 (reservas ++ [reserva])

/-- `EstoqueService.ReservarProdutos` after the idempotency check: the loop, then the
result, its storage under the idempotency key and the cache invalidation. -/
def reservarSemCache (w : World) (req : ReservarEstoqueRequest) (rnd : Nat → Sorteio) :
    World × Except Erro ReservaResult :=
  match reservarItens req.NotaFiscalID rnd req.Itens 0 w [] with
  | (w1, .error err) => (w1, .error err)
  | (w1, .ok reservas) =>
    let result : ReservaResult :=
      { ReservaID := req.NotaFiscalID
        Reservas := reservas
        Mensagem := toString reservas.length ++ " produtos reservados com sucesso" }
    let c1 := w1.cache.set (.reserva req.NotaFiscalID) (.resultJSON result) Hour
    ({ w1 with cache := EstoqueService.invalidateCache c1 }, .ok result)

/-- `EstoqueService.ReservarProdutos`: a stored result that decodes is returned at once. -/
def EstoqueService.ReservarProdutos (w : World) (req : ReservarEstoqueRequest)
    (rnd : Nat → Sorteio) : World × Except Erro ReservaResult :=
  match w.cache.get (.reserva req.NotaFiscalID) with
  | some (.resultJSON result) => (w, .ok result)
  | _ => reservarSemCache w req rnd

/-- `EstoqueService.ConfirmarReserva`. -/
def EstoqueService.ConfirmarReserva (w : World) (reservaID : UUID) : World × Option Erro :=
  match produtoRepository.ConfirmarReserva w.db reservaID with
  | (_, some err) => ({ w with trace := w.trace ++ [.confirmar reservaID false] }, some err)
  | (db1, none) =>
    ({ w with
        db := db1
        cache := EstoqueService.invalidateCache w.cache
        trace := w.trace ++ [.confirmar reservaID true] }, none)

/-- `EstoqueService.CancelarReserva`. -/
def EstoqueService.CancelarReserva (w : World) (reservaID : UUID) : World × Option Erro :=
  match produtoRepository.CancelarReserva w.db reservaID with
  | (_, some err) => ({ w with trace := w.trace ++ [.cancelar reservaID false] }, some err)
  | (db1, none) =>
    ({ w with
        db := db1
        cache := EstoqueService.invalidateCache w.cache
        trace := w.trace ++ [.cancelar reservaID true] }, none)

/-- The loop `for _, item := range itens` of `EstoqueService.BaixarEstoque`; `i` counts the
items done. -/
def baixarItens (rnd : Nat → Sorteio) : List ItemReserva → Nat → World → World × Option Erro
  | [], _, w => (w, none)
  | item :: itens, i, w =>
    let lockKey := "produto:" ++ uuidString item.ProdutoID
    match w.acquire lockKey (5 * Second) (rnd i).lockValue with
    | (w1, .error err) => (w1, some (.Errorf ("não foi possível processar: " ++ err.Error)))
    | (w1, .ok lockValue) =>
      match produtoRepository.BaixarEstoque w1.db item.ProdutoID item.Quantidade with
      | (db1, some err) =>
        let w2 : World := { w1 with
          db := db1
          trace := w1.trace ++ [.baixar item.ProdutoID item.Quantidade false] }
        (w2.release lockKey lockValue, some err)
      | (db1, none) =>
        let w2 : World := { w1 with
          db := db1
          trace := w1.trace ++ [.baixar item.ProdutoID item.Quantidade true] }
        baixarItens rnd itens (i + 1) (w2.release lockKey lockValue)

/-- `EstoqueService.BaixarEstoque`. -/
def EstoqueService.BaixarEstoque (w : World) (itens : List ItemReserva) (rnd : Nat → Sorteio) :
    World × Option Erro :=
  match baixarItens rnd itens 0 w with
  | (w1, some err) => (w1, some err)
  | (w1, none) => ({ w1 with cache := EstoqueService.invalidateCache w1.cache }, none)

/-- Record-store part of `EstoqueService.CriarProduto`: `FindByCodigo`, then `Create` of the
new row, whose `ID` is the generated `novoID`. -/
def criarProdutoTx (db : DB) (req : CriarProdutoRequest) (novoID : UUID) :
    Except Erro (DB × Produto) :=
  match db.produtos.find? (fun p => p.Codigo = req.Codigo) with
  | some _ => .error .ErrCodigoDuplicado
  | none =>
    let produto : Produto :=
      { ID := novoID, Codigo := req.Codigo, Descricao := req.Descricao, Saldo := req.Saldo,
        Reservado := 0 }
    if db.produtos.any (fun x => x.ID = produto.ID) then .error .ErrDuplicatedKey
    else .ok ({ db with produtos := db.produtos ++ [produto] }, produto)

/-- `EstoqueService.CriarProduto`. -/
def EstoqueService.CriarProduto (w : World) (req : CriarProdutoRequest) (novoID : UUID) :
    World × Except Erro Produto :=
  match criarProdutoTx w.db req novoID with
  | .error e => (w, .error e)
  | .ok (db1, produto) => ({ w with db := db1, cache := EstoqueService.invalidateCache w.cache }, .ok produto)

/-! ## internal/handler: the transport mapping of failures -/

/-- Answer written by `c.JSON(status, domain.NewErrorResponse(code, message))`. -/
structure Resposta where
  status : Nat
  code : String
  error : String
  deriving DecidableEq, Repr

/-- Whether the error value is one of the sentinels declared in `internal/domain/errors.go`. -/
def Erro.ehSentinela : Erro → Bool
  | .ErrRecordNotFound => false
  | .ErrDuplicatedKey => false
  | .Errorf _ => false
  | _ => true

/-- `ProdutoHandler.handleError`: `switch err` compares the error value with each sentinel;
the `http.Status*` constants are written as their numbers. -/
def ProdutoHandler.handleError (err : Erro) : Resposta :=
  match err with
  | .ErrProdutoNaoEncontrado => ⟨404, "NOT_FOUND", err.Error⟩
  | .ErrCodigoDuplicado => ⟨409, "DUPLICATE_CODE", err.Error⟩
  | .ErrEstoqueInsuficiente => ⟨409, "INSUFFICIENT_STOCK", err.Error⟩
  | .ErrReservaNaoEncontrada => ⟨404, "RESERVATION_NOT_FOUND", err.Error⟩
  | .ErrReservaExpirada => ⟨410, "RESERVATION_EXPIRED", err.Error⟩
  | .ErrReservaJaConfirmada => ⟨409, "RESERVATION_ALREADY_CONFIRMED", err.Error⟩
  | .ErrReservaJaCancelada => ⟨409, "RESERVATION_ALREADY_CANCELLED", err.Error⟩
  | .ErrSaldoNegativo => ⟨400, "NEGATIVE_BALANCE", err.Error⟩
  | .ErrQuantidadeInvalida => ⟨400, "INVALID_QUANTITY", err.Error⟩
  | .ErrDadosInvalidos => ⟨400, "INVALID_DATA", err.Error⟩
  | .ErrOperacaoNaoPermitida => ⟨403, "OPERATION_NOT_ALLOWED", err.Error⟩
  | _ => ⟨500, "INTERNAL_ERROR", "Erro interno do servidor"⟩

/-! ## Shape of the record of calls of one reservation request -/

/-- Every call of `t` is a compensation call (`CancelarReserva`). -/
def soCancelar (t : List Evento) : Prop := ∀ e ∈ t, ∃ id ok, e = Evento.cancelar id ok

/-- The lock and ledger calls a request over `itens` may make, in order: for each item in
input order its lock is acquired, the ledger is called for that item and the lock is released,
before the next item; the request stops at the first item whose ledger call fails (its lock is
released all the same) or whose lock is not acquired, and then only compensation calls
follow. -/
inductive Disciplina : List ItemReserva → List Evento → Prop where
  | fim : Disciplina [] []
  | feito (item : ItemReserva) (itens : List ItemReserva) (t : List Evento) :
      Disciplina itens t →
      Disciplina (item :: itens)
        (.acquire ("produto:" ++ uuidString item.ProdutoID) true ::
          .reservar item.ProdutoID item.Quantidade true ::
          .release ("produto:" ++ uuidString item.ProdutoID) true :: t)
  | falhaReserva (item : ItemReserva) (itens : List ItemReserva) (cs : List Evento) :
      soCancelar cs →
      Disciplina (item :: itens)
        (.acquire ("produto:" ++ uuidString item.ProdutoID) true ::
          .reservar item.ProdutoID item.Quantidade false ::
          .release ("produto:" ++ uuidString item.ProdutoID) true :: cs)
  | falhaLock (item : ItemReserva) (itens : List ItemReserva) (cs : List Evento) :
      soCancelar cs →
      Disciplina (item :: itens)
        (.acquire ("produto:" ++ uuidString item.ProdutoID) false :: cs)

/-- Resources whose lock the caller holds after the calls `t`, having held `held` before:
a successful acquire adds the resource, a successful release removes it. -/
def posse (held : List String) : List Evento → List String
  | [] => held
  | .acquire r true :: t => posse (held ++ [r]) t
  | .release r true :: t => posse (held.erase r) t
  | _ :: t => posse held t

/-! ## Two single-item reservation requests in flight

A request is cut at the commands it sends to the shared stores, which are the points where
another caller can run: the idempotency lookup, `SET NX`, the `SELECT` of the transaction
(`tx.Clauses()` is called without a locking clause, so the row read is a plain snapshot), the
rest of the transaction up to its commit, the release script, and the storing of the result.
No key expires and nobody else writes the stores. -/

/-- Point a single-item request has reached. -/
inductive Ponto where
  /-- Before the idempotency lookup. -/
  | inicio
  /-- Before `AcquireLock`. -/
  | adquirir
  /-- Lock held with token `lockValue`, before `tx.First`. -/
  | ler (lockValue : String)
  /-- After `tx.First` returned `lido`, before the check, `Save`, `Create` and commit. -/
  | gravar (lockValue : String) (lido : Option Produto)
  /-- After the transaction returned `r`, before `ReleaseLock`. -/
  | liberar (lockValue : String) (r : Except Erro ReservaEstoque)
  /-- Before the result is stored under the idempotency key. -/
  | guardar (reserva : ReservaEstoque)
  /-- Returned. -/
  | fim (r : Except Erro ReservaResult)
  deriving DecidableEq, Repr

/-- A single-item request in flight: its grouping id, its item, the values it draws, and the
point it has reached. -/
structure Pedido where
  notaFiscalID : UUID
  item : ItemReserva
  sorteio : Sorteio
  ponto : Ponto
  deriving DecidableEq, Repr

/-- Body of the transaction of `produtoRepository.ReservarEstoque` after `tx.First` returned
`lido`. -/
def reservarEstoqueApos (lido : Option Produto) (db : DB) (reserva : ReservaEstoque)
    (novoID : UUID) : Except Erro (DB × ReservaEstoque) :=
  match lido with
  | none => .error .ErrRecordNotFound
  | some p =>
    if !p.PodeReservar reserva.Quantidade then .error .ErrEstoqueInsuficiente
    else
      let p1 := { p with Reservado := wrapInt (p.Reservado + reserva.Quantidade) }
      let db1 := db.saveProduto p1
      let r := criada reserva novoID
      if db1.reservas.any (fun x => x.ID = r.ID) then .error .ErrDuplicatedKey
      else .ok ({ db1 with reservas := db1.reservas ++ [r] }, r)

/-- One command of a request of `EstoqueService.ReservarProdutos` with the single item
`t.item`. -/
def passo (w : World) (t : Pedido) : World × Pedido :=
  match t.ponto with
  | .inicio =>
    match w.cache.get (.reserva t.notaFiscalID) with
    | some (.resultJSON result) => (w, { t with ponto := .fim (.ok result) })
    | _ => (w, { t with ponto := .adquirir })
  | .adquirir =>
    match w.acquire ("produto:" ++ uuidString t.item.ProdutoID) (10 * Second)
        t.sorteio.lockValue with
    | (w1, .error _) =>
      (EstoqueService.cancelarReservasAnteriores w1 [],
        { t with
          ponto := Ponto.fim (.error (.Errorf "produto está sendo processado simultaneamente")) })
    | (w1, .ok lockValue) => (w1, { t with ponto := .ler lockValue })
  | .ler lockValue =>
    (w, { t with ponto := .gravar lockValue (w.db.firstProduto t.item.ProdutoID) })
  | .gravar lockValue lido =>
    match reservarEstoqueApos lido w.db (novaReserva t.notaFiscalID t.item t.sorteio.agora)
        t.sorteio.reservaID with
    | .error err =>
      ({ w with trace := w.trace ++ [.reservar t.item.ProdutoID t.item.Quantidade false] },
        { t with ponto := .liberar lockValue (.error err) })
    | .ok (db1, reserva) =>
      ({ w with
          db := db1
          trace := w.trace ++ [.reservar t.item.ProdutoID t.item.Quantidade true] },
        { t with ponto := .liberar lockValue (.ok reserva) })
  | .liberar lockValue r =>
    match r with
    | .error err =>
      (EstoqueService.cancelarReservasAnteriores
          (w.release ("produto:" ++ uuidString t.item.ProdutoID) lockValue) [],
        { t with ponto := .fim (.error err) })
    | .ok reserva =>
      (w.release ("produto:" ++ uuidString t.item.ProdutoID) lockValue,
        { t with ponto := .guardar reserva })
  | .guardar reserva =>
    let result : ReservaResult :=
      { ReservaID := t.notaFiscalID
        Reservas := [reserva]
        Mensagem := toString [reserva].length ++ " produtos reservados com sucesso" }
    let c1 := w.cache.set (.reserva t.notaFiscalID) (.resultJSON result) Hour
    ({ w with cache := EstoqueService.invalidateCache c1 },
      { t with ponto := .fim (.ok result) })
  | .fim _ => (w, t)

/-- `n` commands of one request, with nothing in between. -/
def passos : Nat → World → Pedido → World × Pedido
  | 0, w, t => (w, t)
  | n + 1, w, t => passos n (passo w t).1 (passo w t).2

/-- The shared stores and two requests in flight. -/
structure Config where
  w : World
  a : Pedido
  b : Pedido
  deriving DecidableEq, Repr

/-- The next command of request `b` (`segundo = true`) or of request `a`. -/
def Config.passo (c : Config) (segundo : Bool) : Config :=
  if segundo then { c with w := (Estoque.passo c.w c.b).1, b := (Estoque.passo c.w c.b).2 }
  else { c with w := (Estoque.passo c.w c.a).1, a := (Estoque.passo c.w c.a).2 }

/-- The configuration after the commands are run in the order `ordem`. -/
def intercalar (c : Config) (ordem : List Bool) : Config := ordem.foldl Config.passo c

/-- Two fresh requests for the same product. -/
def doisPedidos (w : World) (produtoID : UUID) (n1 n2 : UUID) (q1 q2 : Int) (s1 s2 : Sorteio) :
    Config :=
  { w := w
    a := ⟨n1, ⟨produtoID, q1⟩, s1, .inicio⟩
    b := ⟨n2, ⟨produtoID, q2⟩, s2, .inicio⟩ }

/-- Bound on the commands a request still has to send. -/
def Ponto.falta : Ponto → Nat
  | .inicio => 6
  | .adquirir => 5
  | .ler _ => 4
  | .gravar _ _ => 3
  | .liberar _ _ => 2
  | .guardar _ => 1
  | .fim _ => 0

/-- Quantity the request has added to `Reservado` so far: its own, once its transaction has
committed. -/
def Pedido.ganho (t : Pedido) : Int :=
  match t.ponto with
  | .liberar _ (.ok _) => t.item.Quantidade
  | .guardar _ => t.item.Quantidade
  | .fim (.ok _) => t.item.Quantidade
  | _ => 0

/-- The quantity `q` when the request returned a result, zero when it returned an error. -/
def efetivado (r : Except Erro ReservaResult) (q : Int) : Int :=
  match r with
  | .ok _ => q
  | .error _ => 0

/-- Token under which the request holds the lock, between its acquire and its release. -/
def Pedido.token (t : Pedido) : Option String :=
  match t.ponto with
  | .ler v => some v
  | .gravar v _ => some v
  | .liberar v _ => some v
  | _ => none

/-- The two failures a fresh request for an existing item can end with. -/
def erroEsperado (e : Erro) : Prop :=
  e = .ErrEstoqueInsuficiente ∨ e = .Errorf "produto está sendo processado simultaneamente"

/-- What holds of one request in flight for product `pid`, relative to the stores. -/
structure InvPedido (pid : UUID) (w : World) (t : Pedido) : Prop where
  prod : t.item.ProdutoID = pid
  qpos : 0 < t.item.Quantidade
  token : ∀ v, t.token = some v →
    w.locks.get ("lock:" ++ ("produto:" ++ uuidString pid)) = some v
  lido : ∀ v l, t.ponto = .gravar v l → l = w.db.firstProduto pid
  cache : t.ponto = .inicio → w.cache.get (.reserva t.notaFiscalID) = none
  fresco : t.ganho = 0 → ∀ x ∈ w.db.reservas, x.ID ≠ t.sorteio.reservaID
  erroL : ∀ v e, t.ponto = .liberar v (.error e) → erroEsperado e
  erroF : ∀ e, t.ponto = .fim (.error e) → erroEsperado e

/-- What holds of the stores and two requests in flight for product `pid`, whose row had
balance `saldo` and reserved `r0` when they started. -/
structure InvC (pid : UUID) (saldo r0 : Int) (w : World) (a b : Pedido) : Prop where
  pa : InvPedido pid w a
  pb : InvPedido pid w b
  excl : a.token = none ∨ b.token = none
  linha : ∃ row, w.db.firstProduto pid = some row ∧ row.Saldo = saldo ∧
    row.Reservado = r0 + a.ganho + b.ganho
  limites : 0 ≤ saldo ∧ saldo < 9223372036854775808 ∧ 0 ≤ r0 ∧ r0 < 9223372036854775808
  teto : 0 < a.ganho + b.ganho → r0 + a.ganho + b.ganho ≤ saldo
  notas : a.notaFiscalID ≠ b.notaFiscalID
  ids : a.sorteio.reservaID ≠ b.sorteio.reservaID

/-! ## Runs of the ledger -/

/-- One step of a run: the creation of an item or one of the four ledger operations. -/
inductive Operacao where
  | criar (req : CriarProdutoRequest) (novoID : UUID)
  | reservar (reserva : ReservaEstoque) (novoID : UUID)
  | confirmar (notaID : UUID)
  | cancelar (notaID : UUID)
  | baixar (produtoID : UUID) (qtd : Int)
  deriving DecidableEq, Repr

/-- What request validation guarantees of a step: a new item has a non-negative Go-int
balance (`gte=0`), quantities are positive (`gt=0`). -/
def Operacao.valida : Operacao → Prop
  | .criar req _ => 0 ≤ req.Saldo ∧ req.Saldo < 9223372036854775808
  | .reservar reserva _ => 0 < reserva.Quantidade
  | .confirmar _ => True
  | .cancelar _ => True
  | .baixar _ qtd => 0 < qtd

instance (o : Operacao) : Decidable o.valida := by
  cases o <;> unfold Operacao.valida <;> infer_instance

/-- Whether the step is a direct deduction. -/
def Operacao.ehBaixa : Operacao → Bool
  | .baixar _ _ => true
  | _ => false

/-- Database after one step (a failed step leaves it as it was). -/
def aplicar (db : DB) : Operacao → DB
  | .criar req novoID =>
    match criarProdutoTx db req novoID with
    | .ok (db1, _) => db1
    | .error _ => db
  | .reservar reserva novoID => (produtoRepository.ReservarEstoque db reserva novoID).1
  | .confirmar notaID => (produtoRepository.ConfirmarReserva db notaID).1
  | .cancelar notaID => (produtoRepository.CancelarReserva db notaID).1
  | .baixar produtoID qtd => (produtoRepository.BaixarEstoque db produtoID qtd).1

/-- Database after a run. -/
def executar (db : DB) (ops : List Operacao) : DB := ops.foldl aplicar db

/-- The empty database. -/
def vazio : DB := ⟨[], []⟩

/-! ## Well-formedness of rows (data model) -/

/-- A product row of the data model: `Saldo` and `Reservado` are non-negative Go ints. -/
def Produto.valido (p : Produto) : Prop :=
  0 ≤ p.Saldo ∧ p.Saldo < 9223372036854775808 ∧
    0 ≤ p.Reservado ∧ p.Reservado < 9223372036854775808

instance (p : Produto) : Decidable p.valido := by unfold Produto.valido; infer_instance

/-- Primary key of table `produtos`: no two rows share an `ID`. -/
def DB.chaveProdutos (db : DB) : Prop := (db.produtos.map (fun p => p.ID)).Nodup

instance (db : DB) : Decidable db.chaveProdutos := by unfold DB.chaveProdutos; infer_instance

/-- Primary key of table `reserva_estoques`: no two rows share an `ID`. -/
def DB.chaveReservas (db : DB) : Prop := (db.reservas.map (fun r => r.ID)).Nodup

instance (db : DB) : Decidable db.chaveReservas := by unfold DB.chaveReservas; infer_instance

/-- Sum of the quantities of the rows of `rs` that are on product `pid`. -/
def totalPor (rs : List ReservaEstoque) (pid : UUID) : Int :=
  ((rs.filter (fun r => r.ProdutoID = pid)).map (fun r => r.Quantidade)).sum

/-- Sum of the quantities of the `PENDENTE` rows of `rs` that are on product `pid`. -/
def pendSoma (rs : List ReservaEstoque) (pid : UUID) : Int :=
  totalPor (rs.filter (fun r => r.Status = "PENDENTE")) pid

/-- Consistency of a database: primary keys, well-formed items whose `Reservado` covers the
`PENDENTE` quantities held on them, non-negative `PENDENTE` quantities, and reservations
that refer to existing items. -/
structure Inv (db : DB) : Prop where
  chaveP : db.chaveProdutos
  chaveR : db.chaveReservas
  prod : ∀ p ∈ db.produtos, p.valido ∧ pendSoma db.reservas p.ID ≤ p.Reservado
  qpos : ∀ r ∈ db.reservas, r.Status = "PENDENTE" → 0 ≤ r.Quantidade
  refs : ∀ r ∈ db.reservas, ∃ p ∈ db.produtos, p.ID = r.ProdutoID

/-- Every item has `Reservado ≤ Saldo`. -/
def Coberto (db : DB) : Prop := ∀ p ∈ db.produtos, p.Reservado ≤ p.Saldo

/-- Table `l` after `tx.Save` of each row of `rs`, in order, with its status set to `st`. -/
def marcar (st : String) (rs l : List ReservaEstoque) : List ReservaEstoque :=
  rs.foldl (fun acc r => acc.map (fun x => if x.ID = r.ID then { r with Status := st } else x)) l

/-- The database with every `ExpiresAt` rewritten by `g`. -/
def DB.comExpiracao (g : Nat → Nat) (db : DB) : DB :=
  { db with reservas := db.reservas.map (fun r => { r with ExpiresAt := g r.ExpiresAt }) }

/-! ## Example data -/

/-- Two products: `1` with balance 10, `2` with balance 1; nothing reserved. -/
def exProdutos : List Produto := [⟨1, "A", "a", 10, 0⟩, ⟨2, "B", "b", 1, 0⟩]

/-- Database with the two example products and no reservation. -/
def exDB : DB := ⟨exProdutos, []⟩

/-- Database in which group `100` was reserved (6 of product `1`) and then confirmed. -/
def exConfirmado : DB :=
  ⟨[⟨1, "A", "a", 4, 0⟩], [⟨7, 1, 100, 6, "CONFIRMADO", 600000000000⟩]⟩

/-- Group `100` holds 6 of product `1` and 3 of product `2`, whose balance is only 1. -/
def exNegativo : DB :=
  ⟨[⟨1, "A", "a", 10, 6⟩, ⟨2, "B", "b", 1, 3⟩],
    [⟨7, 1, 100, 6, "PENDENTE", 0⟩, ⟨8, 2, 100, 3, "PENDENTE", 0⟩]⟩

/-- Item `1` as `{10, 6}` with the `PENDENTE` row of group `100` that holds the 6, and a
`PENDENTE` row of group `200` on item `2`. -/
def exReservado : DB :=
  ⟨[⟨1, "A", "a", 10, 6⟩, ⟨2, "B", "b", 1, 1⟩],
    [⟨7, 1, 100, 6, "PENDENTE", 0⟩, ⟨8, 2, 200, 1, "PENDENTE", 0⟩]⟩

/-- A run: item `1` created with balance 10, 6 reserved for group `100`, then confirmed. -/
def exRun : List Operacao :=
  [.criar ⟨"A", "a", 10⟩ 1, .reservar ⟨0, 1, 100, 6, "", 0⟩ 7, .confirmar 100]

/-- World in which the lock of product `1` is held by another caller (token `x`). -/
def exOcupado : World :=
  ⟨exDB, [⟨"lock:produto:1", "x", 10 * Second⟩], [], []⟩

/-- World in which the lock of product `2` is held by another caller (token `x`). -/
def exOcupado2 : World :=
  ⟨exDB, [⟨"lock:produto:2", "x", 10 * Second⟩], [], []⟩

/-- Item `1` with balance 10 and nothing reserved; two requests, for groups `100` and `200`,
of 6 units each, and an order of commands in which the second request tries the lock while
the first one holds it. -/
def exDisputa : Config :=
  doisPedidos ⟨exDB, [], [], []⟩ 1 100 200 6 6 ⟨"t", 1000, 0⟩ ⟨"u", 2000, 0⟩

/-- The order of commands of `exDisputa`: two of the first request, two of the second, then
each request to its end. -/
def exOrdem : List Bool :=
  [false, false, true, true, false, false, false, false, true, true, true, true]

/-- One request after the other, six commands each. -/
def exEmSerie : List Bool :=
  [false, false, false, false, false, false, true, true, true, true, true, true]

/-! ## Basic facts -/

theorem wrapInt_eq {x : Int} (h : isInt x) : wrapInt x = x := by
  unfold isInt at h
  unfold wrapInt
  omega

theorem firstProduto_some {db : DB} {id : UUID} {p : Produto}
    (h : db.firstProduto id = some p) : p ∈ db.produtos ∧ p.ID = id := by
  unfold DB.firstProduto at h
  refine ⟨List.mem_of_find?_eq_some h, ?_⟩
  have := List.find?_some h
  simpa using this

/-! ## Facts about the product table -/

theorem firstProduto_of_mem {db : DB} {p : Produto} (hk : db.chaveProdutos)
    (hp : p ∈ db.produtos) : db.firstProduto p.ID = some p := by
  cases h : db.firstProduto p.ID with
  | none =>
    unfold DB.firstProduto at h
    rw [List.find?_eq_none] at h
    have := h p hp
    simp at this
  | some p1 =>
    obtain ⟨hm, hid⟩ := firstProduto_some h
    have := List.inj_on_of_nodup_map hk hm hp hid
    rw [this]

theorem firstProduto_of_ref {db : DB} {id : UUID} (hk : db.chaveProdutos)
    (h : ∃ p ∈ db.produtos, p.ID = id) :
    ∃ p, p ∈ db.produtos ∧ p.ID = id ∧ db.firstProduto id = some p := by
  obtain ⟨p, hp, rfl⟩ := h
  exact ⟨p, hp, rfl, firstProduto_of_mem hk hp⟩

theorem saveProduto_ids (db : DB) (p1 : Produto) :
    (db.saveProduto p1).produtos.map (fun p => p.ID) = db.produtos.map (fun p => p.ID) := by
  unfold DB.saveProduto
  simp only [List.map_map]
  apply List.map_congr_left
  intro x _
  by_cases h : x.ID = p1.ID <;> simp [h]

theorem mem_saveProduto {db : DB} {p1 x : Produto} (hx : x ∈ (db.saveProduto p1).produtos) :
    (x = p1 ∧ ∃ y ∈ db.produtos, y.ID = p1.ID) ∨ (x ∈ db.produtos ∧ x.ID ≠ p1.ID) := by
  unfold DB.saveProduto at hx
  simp only [List.mem_map] at hx
  obtain ⟨y, hy, rfl⟩ := hx
  by_cases h : y.ID = p1.ID
  · left
    simp only [h, if_true]
    exact ⟨trivial, y, hy, h⟩
  · right
    simp only [h, if_false]
    exact ⟨hy, h⟩

theorem saveProduto_chave {db : DB} (p1 : Produto) (hk : db.chaveProdutos) :
    ((db.saveProduto p1).saveReserva r).chaveProdutos := by
  unfold DB.chaveProdutos
  show ((db.saveProduto p1).produtos.map (fun p => p.ID)).Nodup
  rw [saveProduto_ids]
  exact hk

theorem saveProduto_ref {db : DB} (p1 : Produto) {id : UUID}
    (h : ∃ p ∈ db.produtos, p.ID = id) :
    ∃ p ∈ ((db.saveProduto p1).saveReserva r).produtos, p.ID = id := by
  obtain ⟨p, hp, hid⟩ := h
  have : id ∈ (db.saveProduto p1).produtos.map (fun p => p.ID) := by
    rw [saveProduto_ids]
    exact List.mem_map.mpr ⟨p, hp, hid⟩
  obtain ⟨q, hq, hqid⟩ := List.mem_map.mp this
  exact ⟨q, hq, hqid⟩

theorem totalPor_nil (pid : UUID) : totalPor [] pid = 0 := rfl

theorem totalPor_cons (r : ReservaEstoque) (rs : List ReservaEstoque) (pid : UUID) :
    totalPor (r :: rs) pid =
      (if r.ProdutoID = pid then r.Quantidade else 0) + totalPor rs pid := by
  unfold totalPor
  by_cases h : r.ProdutoID = pid <;> simp [List.filter_cons, h]

theorem totalPor_nonneg {rs : List ReservaEstoque} (h : ∀ r ∈ rs, 0 ≤ r.Quantidade)
    (pid : UUID) : 0 ≤ totalPor rs pid := by
  induction rs with
  | nil => simp [totalPor_nil]
  | cons r rs ih =>
    rw [totalPor_cons]
    have h1 := h r (List.mem_cons_self _ _)
    have h2 := ih (fun x hx => h x (List.mem_cons_of_mem _ hx))
    split <;> omega

/-! ## C1: rollback of a partially failed request -/

/-- C1 (evaluation): request `100` for 5 of product `1` (balance 10) then 5 of product `2`
(balance 1), the inserted row getting id `1000`. The call fails with
`ErrEstoqueInsuficiente`, the compensation `produtoRepository.CancelarReserva(1000)` ran, and yet product `1`
is left with `Reservado = 5` and its reservation row is still `PENDENTE`. -/
theorem reservarProdutos_rollback_falha :
    EstoqueService.ReservarProdutos ⟨exDB, [], [], []⟩ ⟨100, [⟨1, 5⟩, ⟨2, 5⟩]⟩ (fun i => ⟨"t", 1000 + i, 0⟩) =
      (⟨⟨[⟨1, "A", "a", 10, 5⟩, ⟨2, "B", "b", 1, 0⟩],
          [⟨1000, 1, 100, 5, "PENDENTE", 600000000000⟩]⟩, [], [],
        [.acquire "produto:1" true, .reservar 1 5 true, .release "produto:1" true,
         .acquire "produto:2" true, .reservar 2 5 false, .release "produto:2" true,
         .cancelar 1000 true]⟩,
       .error .ErrEstoqueInsuficiente) := by
  decide

/-! ## C2: idempotent replay -/

theorem cache_get_set_invalidate (c : Cache) (notaID : UUID) (v : Cached) (ttl : Nat) :
    Cache.get (EstoqueService.invalidateCache (Cache.set c (.reserva notaID) v ttl)) (.reserva notaID) =
      some v := by
  unfold Cache.get EstoqueService.invalidateCache Cache.set
  rw [List.filter_append, List.find?_append]
  have hnone : List.find? (fun e => decide (e.key = CacheKey.reserva notaID))
      (List.filter (fun e => match e.key with
          | .produtos _ => false
          | .reserva _ => true)
        (List.filter (fun e => decide (e.key ≠ CacheKey.reserva notaID)) c)) = none := by
    rw [List.find?_eq_none]
    intro x hx
    have h2 := (List.mem_filter.mp (List.mem_filter.mp hx).1).2
    simpa using h2
  rw [hnone]
  simp

theorem reservarSemCache_cache {w w1 : World} {req : ReservarEstoqueRequest}
    {rnd : Nat → Sorteio} {result : ReservaResult}
    (h : reservarSemCache w req rnd = (w1, .ok result)) :
    w1.cache.get (.reserva req.NotaFiscalID) = some (.resultJSON result) := by
  unfold reservarSemCache at h
  split at h
  · simp at h
  · simp only [Prod.mk.injEq, Except.ok.injEq] at h
    obtain ⟨rfl, rfl⟩ := h
    exact cache_get_set_invalidate _ _ _ _

/-- C2: when `EstoqueService.ReservarProdutos` succeeds with `result`, leaving the world `w1`, a second call
with the same request on `w1` (whatever values it would draw) returns `result` again and
leaves `w1` exactly as it is: same database, same lock store, same cache, and no lock or
ledger call is added to the record of calls. -/
theorem reservarProdutos_replay (w : World) (req : ReservarEstoqueRequest)
    (rnd rnd2 : Nat → Sorteio) (w1 : World) (result : ReservaResult)
    (h : EstoqueService.ReservarProdutos w req rnd = (w1, .ok result)) :
    EstoqueService.ReservarProdutos w1 req rnd2 = (w1, .ok result) := by
  have run : reservarSemCache w req rnd = (w1, .ok result) →
      EstoqueService.ReservarProdutos w1 req rnd2 = (w1, .ok result) := by
    intro h2
    have hc := reservarSemCache_cache h2
    simp [EstoqueService.ReservarProdutos, hc]
  unfold EstoqueService.ReservarProdutos at h
  cases hget : w.cache.get (CacheKey.reserva req.NotaFiscalID) with
  | none =>
    simp only [hget] at h
    exact run h
  | some c =>
    cases c with
    | resultJSON r =>
      simp only [hget, Prod.mk.injEq, Except.ok.injEq] at h
      obtain ⟨rfl, rfl⟩ := h
      simp [EstoqueService.ReservarProdutos, hget]
    | texto t =>
      simp only [hget] at h
      exact run h

theorem reservarProdutos_replay_witness :
    EstoqueService.ReservarProdutos ⟨⟨[⟨1, "A", "a", 10, 6⟩, ⟨2, "B", "b", 1, 0⟩],
        [⟨1000, 1, 100, 6, "PENDENTE", 600000000000⟩]⟩, [],
      [⟨.reserva 100, .resultJSON ⟨100, [⟨1000, 1, 100, 6, "PENDENTE", 600000000000⟩],
        "1 produtos reservados com sucesso"⟩, Hour⟩],
      [.acquire "produto:1" true, .reservar 1 6 true, .release "produto:1" true]⟩
      ⟨100, [⟨1, 6⟩]⟩ (fun i => ⟨"u", 2000 + i, 9⟩) =
    (⟨⟨[⟨1, "A", "a", 10, 6⟩, ⟨2, "B", "b", 1, 0⟩],
        [⟨1000, 1, 100, 6, "PENDENTE", 600000000000⟩]⟩, [],
      [⟨.reserva 100, .resultJSON ⟨100, [⟨1000, 1, 100, 6, "PENDENTE", 600000000000⟩],
        "1 produtos reservados com sucesso"⟩, Hour⟩],
      [.acquire "produto:1" true, .reservar 1 6 true, .release "produto:1" true]⟩,
     .ok ⟨100, [⟨1000, 1, 100, 6, "PENDENTE", 600000000000⟩],
        "1 produtos reservados com sucesso"⟩) :=
  reservarProdutos_replay ⟨exDB, [], [], []⟩ ⟨100, [⟨1, 6⟩]⟩ (fun i => ⟨"t", 1000 + i, 0⟩)
    (fun i => ⟨"u", 2000 + i, 9⟩) _ _ (by decide)

/-! ## C3, C4: `produtoRepository.ReservarEstoque` -/

/-- C3: reserving `q` on an existing, well-formed item with `balance - reserved < q` fails
with `ErrEstoqueInsuficiente`; the database (hence the item's balance and reserved, and the
reservation table) is the one before the call. -/
theorem reservarEstoque_insuficiente (db : DB) (reserva : ReservaEstoque) (novoID : UUID)
    (p : Produto) (hp : db.firstProduto reserva.ProdutoID = some p) (hv : p.valido)
    (hq : p.Saldo - p.Reservado < reserva.Quantidade) :
    produtoRepository.ReservarEstoque db reserva novoID = (db, reserva, some .ErrEstoqueInsuficiente) := by
  obtain ⟨h1, h2, h3, h4⟩ := hv
  have hw : wrapInt (p.Saldo - p.Reservado) = p.Saldo - p.Reservado :=
    wrapInt_eq ⟨by omega, by omega⟩
  have hpr : p.PodeReservar reserva.Quantidade = false := by
    unfold Produto.PodeReservar
    rw [hw]
    simp only [decide_eq_false_iff_not, not_le]
    exact hq
  simp [produtoRepository.ReservarEstoque, reservarEstoqueTx, hp, hpr]

theorem reservarEstoque_insuficiente_witness :
    produtoRepository.ReservarEstoque exDB ⟨0, 2, 100, 5, "", 0⟩ 7 =
      (exDB, ⟨0, 2, 100, 5, "", 0⟩, some .ErrEstoqueInsuficiente) :=
  reservarEstoque_insuficiente exDB ⟨0, 2, 100, 5, "", 0⟩ 7 ⟨2, "B", "b", 1, 0⟩
    (by decide) (by decide) (by decide)

/-- C4: for an existing, well-formed item `p` and a quantity `0 < q ≤ balance - reserved`,
`produtoRepository.ReservarEstoque` on the row built by `EstoqueService.ReservarProdutos` succeeds (the generated id being
unused): every row of the item has `Reservado` raised by exactly `q` and `Saldo` unchanged,
the other products are untouched, and the reservation table gains exactly one row, for that
item, grouping id and quantity, with status `PENDENTE`. -/
theorem reservarEstoque_ok (db : DB) (notaID : UUID) (item : ItemReserva) (agora : Nat)
    (novoID : UUID) (p : Produto) (hp : db.firstProduto item.ProdutoID = some p)
    (hv : p.valido) (hpos : 0 < item.Quantidade)
    (hq : item.Quantidade ≤ p.Saldo - p.Reservado)
    (hfresh : ∀ x ∈ db.reservas, x.ID ≠ novoID) :
    produtoRepository.ReservarEstoque db (novaReserva notaID item agora) novoID =
      ({ produtos := db.produtos.map (fun x =>
            if x.ID = item.ProdutoID then
              { p with Reservado := p.Reservado + item.Quantidade }
            else x)
         reservas := db.reservas ++
            [{ ID := novoID, ProdutoID := item.ProdutoID, NotaFiscalID := notaID,
               Quantidade := item.Quantidade, Status := "PENDENTE",
               ExpiresAt := agora + 10 * Minute }] },
       { ID := novoID, ProdutoID := item.ProdutoID, NotaFiscalID := notaID,
         Quantidade := item.Quantidade, Status := "PENDENTE",
         ExpiresAt := agora + 10 * Minute },
       none) := by
  obtain ⟨h1, h2, h3, h4⟩ := hv
  have hid := (firstProduto_some hp).2
  have hw : wrapInt (p.Saldo - p.Reservado) = p.Saldo - p.Reservado :=
    wrapInt_eq ⟨by omega, by omega⟩
  have hw2 : wrapInt (p.Reservado + item.Quantidade) = p.Reservado + item.Quantidade :=
    wrapInt_eq ⟨by omega, by omega⟩
  have hpr : p.PodeReservar item.Quantidade = true := by
    unfold Produto.PodeReservar
    rw [hw]
    simpa using hq
  have hany : ¬ ∃ x ∈ db.reservas, x.ID = novoID := by
    rintro ⟨x, hx, h⟩
    exact hfresh x hx h
  simp [produtoRepository.ReservarEstoque, reservarEstoqueTx, novaReserva, criada, hp, hpr, hw2,
    DB.saveProduto, hid, hany]

theorem reservarEstoque_ok_witness :
    produtoRepository.ReservarEstoque exDB (novaReserva 100 ⟨1, 6⟩ 0) 7 =
      (⟨[⟨1, "A", "a", 10, 6⟩, ⟨2, "B", "b", 1, 0⟩],
          [⟨7, 1, 100, 6, "PENDENTE", 600000000000⟩]⟩,
        ⟨7, 1, 100, 6, "PENDENTE", 600000000000⟩, none) :=
  reservarEstoque_ok exDB 100 ⟨1, 6⟩ 0 7 ⟨1, "A", "a", 10, 0⟩
    (by decide) (by decide) (by decide) (by decide) (by decide)

/-! ## C5: effect of a successful `produtoRepository.ConfirmarReserva` -/

theorem confirmarLoop_ok : ∀ (rs : List ReservaEstoque) (db : DB),
    db.chaveProdutos →
    (∀ r ∈ rs, 0 ≤ r.Quantidade) →
    (∀ r ∈ rs, ∃ p ∈ db.produtos, p.ID = r.ProdutoID) →
    (∀ p ∈ db.produtos, p.Saldo < 9223372036854775808 ∧ p.Reservado < 9223372036854775808 ∧
      totalPor rs p.ID ≤ p.Saldo ∧ -9223372036854775808 ≤ p.Reservado - totalPor rs p.ID) →
    confirmarLoop rs db = .ok
      { produtos := db.produtos.map (fun p =>
          { p with Saldo := p.Saldo - totalPor rs p.ID
                   Reservado := p.Reservado - totalPor rs p.ID })
        reservas := marcar "CONFIRMADO" rs db.reservas } := by
  intro rs
  induction rs with
  | nil =>
    intro db _ _ _ _
    simp [confirmarLoop, totalPor_nil, marcar]
  | cons r rs ih =>
    intro db hk hq href hb
    obtain ⟨p, hp, hpid, hfirst⟩ := firstProduto_of_ref hk (href r (List.mem_cons_self _ _))
    have hq0 := hq r (List.mem_cons_self _ _)
    have hqs : ∀ x ∈ rs, 0 ≤ x.Quantidade := fun x hx => hq x (List.mem_cons_of_mem _ hx)
    obtain ⟨hb1, hb2, hb3, hb4⟩ := hb p hp
    have htp := totalPor_nonneg hqs p.ID
    rw [totalPor_cons, if_pos hpid.symm] at hb3 hb4
    have hw : wrapInt (p.Saldo - r.Quantidade) = p.Saldo - r.Quantidade :=
      wrapInt_eq ⟨by omega, by omega⟩
    have hw2 : wrapInt (p.Reservado - r.Quantidade) = p.Reservado - r.Quantidade :=
      wrapInt_eq ⟨by omega, by omega⟩
    have hneg : ¬ p.Saldo - r.Quantidade < 0 := by omega
    unfold confirmarLoop
    simp only [hfirst, hw, hw2, hneg, if_false]
    rw [ih]
    · simp only [DB.saveReserva, DB.saveProduto, List.map_map, Except.ok.injEq, DB.mk.injEq]
      refine ⟨?_, rfl⟩
      apply List.map_congr_left
      intro x hx
      by_cases hsame : x.ID = p.ID
      · have hxp : x = p := List.inj_on_of_nodup_map hk hx hp hsame
        subst hxp
        simp only [Function.comp, if_true, totalPor_cons, if_pos hpid.symm]
        simp only [Produto.mk.injEq, true_and]
        constructor <;> omega
      · have hne : ¬ r.ProdutoID = x.ID := fun h => hsame (by rw [← h, hpid])
        simp only [Function.comp, hsame, if_false, totalPor_cons, hne, zero_add]
    · exact saveProduto_chave _ hk
    · exact hqs
    · exact fun x hx => saveProduto_ref _ (href x (List.mem_cons_of_mem _ hx))
    · intro x hx
      rcases mem_saveProduto hx with ⟨rfl, _⟩ | ⟨hx1, hx2⟩
      · simp only
        refine ⟨by omega, by omega, by omega, by omega⟩
      · have hne : ¬ r.ProdutoID = x.ID := fun h => hx2 (by simp only; rw [← h, hpid])
        have := hb x hx1
        rw [totalPor_cons, if_neg hne, zero_add] at this
        exact this

theorem marcar_eq_map (st : String) : ∀ (rs l : List ReservaEstoque),
    (l.map (fun r => r.ID)).Nodup → (rs.map (fun r => r.ID)).Nodup → (∀ r ∈ rs, r ∈ l) →
    marcar st rs l =
      l.map (fun x => if x.ID ∈ rs.map (fun r => r.ID) then { x with Status := st } else x) := by
  intro rs
  induction rs with
  | nil =>
    intro l _ _ _
    simp [marcar]
  | cons r rs ih =>
    intro l hl hrs hsub
    have hr : r ∈ l := hsub r (List.mem_cons_self _ _)
    rw [List.map_cons, List.nodup_cons] at hrs
    obtain ⟨hnot, hrs1⟩ := hrs
    have hids : (l.map (fun x => if x.ID = r.ID then { r with Status := st } else x)).map
        (fun r => r.ID) = l.map (fun r => r.ID) := by
      rw [List.map_map]
      apply List.map_congr_left
      intro x _
      by_cases h : x.ID = r.ID <;> simp [h]
    have hstep : marcar st (r :: rs) l =
        marcar st rs (l.map (fun x => if x.ID = r.ID then { r with Status := st } else x)) := rfl
    rw [hstep, ih _ (by rw [hids]; exact hl) hrs1]
    · rw [List.map_map]
      apply List.map_congr_left
      intro x hx
      by_cases hsame : x.ID = r.ID
      · have hxr : x = r := List.inj_on_of_nodup_map hl hx hr hsame
        subst hxr
        simp [hnot]
      · have : ¬ r.ID = x.ID := fun h => hsame h.symm
        simp [hsame]
    · intro x hx
      have hxl := hsub x (List.mem_cons_of_mem _ hx)
      have hne : x.ID ≠ r.ID := by
        intro h
        apply hnot
        rw [← h]
        exact List.mem_map.mpr ⟨x, hx, rfl⟩
      exact List.mem_map.mpr ⟨x, hxl, by simp [hne]⟩

theorem pendentes_ids_nodup {db : DB} (hk : db.chaveReservas) (notaID : UUID) :
    ((db.pendentes notaID).map (fun r => r.ID)).Nodup :=
  List.Nodup.sublist (List.Sublist.map _ (List.filter_sublist _)) hk

theorem mem_pendentes {db : DB} {notaID : UUID} {r : ReservaEstoque} :
    r ∈ db.pendentes notaID ↔
      r ∈ db.reservas ∧ r.NotaFiscalID = notaID ∧ r.Status = "PENDENTE" := by
  unfold DB.pendentes
  simp [List.mem_filter]

theorem marcar_pendentes (st : String) {db : DB} (hk : db.chaveReservas) (notaID : UUID) :
    marcar st (db.pendentes notaID) db.reservas =
      db.reservas.map (fun x =>
        if x.NotaFiscalID = notaID ∧ x.Status = "PENDENTE" then { x with Status := st }
        else x) := by
  rw [marcar_eq_map st _ _ hk (pendentes_ids_nodup hk notaID)
    (fun r hr => (mem_pendentes.mp hr).1)]
  apply List.map_congr_left
  intro x hx
  by_cases hpend : x.NotaFiscalID = notaID ∧ x.Status = "PENDENTE"
  · have : x.ID ∈ (db.pendentes notaID).map (fun r => r.ID) :=
      List.mem_map.mpr ⟨x, mem_pendentes.mpr ⟨hx, hpend⟩, rfl⟩
    rw [if_pos this, if_pos hpend]
  · have : ¬ x.ID ∈ (db.pendentes notaID).map (fun r => r.ID) := by
      intro h
      obtain ⟨y, hy, hid⟩ := List.mem_map.mp h
      obtain ⟨hy1, hy2⟩ := mem_pendentes.mp hy
      have : y = x := List.inj_on_of_nodup_map hk hy1 hx hid
      subst this
      exact hpend hy2
    rw [if_neg this, if_neg hpend]

theorem confirmarReserva_efeito (db : DB) (notaID : UUID) (hk : db.chaveProdutos)
    (hkr : db.chaveReservas) (hv : ∀ p ∈ db.produtos, p.valido)
    (hq : ∀ r ∈ db.pendentes notaID, 0 ≤ r.Quantidade)
    (href : ∀ r ∈ db.pendentes notaID, ∃ p ∈ db.produtos, p.ID = r.ProdutoID)
    (hs : ∀ p ∈ db.produtos, totalPor (db.pendentes notaID) p.ID ≤ p.Saldo) :
    produtoRepository.ConfirmarReserva db notaID =
      ({ produtos := db.produtos.map (fun p =>
            { p with Saldo := p.Saldo - totalPor (db.pendentes notaID) p.ID
                     Reservado := p.Reservado - totalPor (db.pendentes notaID) p.ID })
         reservas := db.reservas.map (fun x =>
            if x.NotaFiscalID = notaID ∧ x.Status = "PENDENTE" then
              { x with Status := "CONFIRMADO" }
            else x) }, none) := by
  unfold produtoRepository.ConfirmarReserva
  rw [confirmarLoop_ok _ db hk hq href, marcar_pendentes "CONFIRMADO" hkr]
  intro p hp
  obtain ⟨h1, h2, h3, h4⟩ := hv p hp
  have := hs p hp
  exact ⟨h2, h4, this, by omega⟩

/-- C5: in a database with primary keys and well-formed items, for a group whose `PENDENTE`
rows have non-negative quantities, refer to existing items and add up, on every item, to at
most the item's balance (so that no balance becomes negative), `produtoRepository.ConfirmarReserva` returns no
error; every item has `Saldo` and `Reservado` both lowered by exactly the sum of the group's
`PENDENTE` quantities on it (items the group does not touch keep their values, the sum being
zero), exactly the group's `PENDENTE` rows become `CONFIRMADO`, and every other reservation
row is unchanged. -/
theorem confirmarReserva_ok (db : DB) (notaID : UUID) (hk : db.chaveProdutos)
    (hkr : db.chaveReservas) (hv : ∀ p ∈ db.produtos, p.valido)
    (hq : ∀ r ∈ db.pendentes notaID, 0 ≤ r.Quantidade)
    (href : ∀ r ∈ db.pendentes notaID, ∃ p ∈ db.produtos, p.ID = r.ProdutoID)
    (hs : ∀ p ∈ db.produtos, totalPor (db.pendentes notaID) p.ID ≤ p.Saldo) :
    produtoRepository.ConfirmarReserva db notaID =
      ({ produtos := db.produtos.map (fun p =>
            { p with Saldo := p.Saldo - totalPor (db.pendentes notaID) p.ID
                     Reservado := p.Reservado - totalPor (db.pendentes notaID) p.ID })
         reservas := db.reservas.map (fun x =>
            if x.NotaFiscalID = notaID ∧ x.Status = "PENDENTE" then
              { x with Status := "CONFIRMADO" }
            else x) }, none) :=
  confirmarReserva_efeito db notaID hk hkr hv hq href hs

theorem confirmarReserva_ok_witness :
    produtoRepository.ConfirmarReserva exReservado 100 =
      (⟨[⟨1, "A", "a", 4, 0⟩, ⟨2, "B", "b", 1, 1⟩],
        [⟨7, 1, 100, 6, "CONFIRMADO", 0⟩, ⟨8, 2, 200, 1, "PENDENTE", 0⟩]⟩, none) :=
  (confirmarReserva_ok exReservado 100 (by decide) (by decide) (by decide) (by decide)
    (by decide) (by decide)).trans (by decide)

/-! ## C6: `produtoRepository.ConfirmarReserva` on a group without `PENDENTE` rows -/

/-- C6 (evaluation): confirming a group that has no reservation at all, and confirming group
`100` a second time, both return no error (and leave the database as it is);
`ErrReservaNaoEncontrada` is not returned. -/
theorem confirmarReserva_sem_pendentes :
    produtoRepository.ConfirmarReserva exDB 100 = (exDB, none) ∧
    produtoRepository.ConfirmarReserva ⟨[⟨1, "A", "a", 10, 6⟩], [⟨7, 1, 100, 6, "PENDENTE", 600000000000⟩]⟩ 100 =
      (exConfirmado, none) ∧
    produtoRepository.ConfirmarReserva exConfirmado 100 = (exConfirmado, none) ∧
    EstoqueService.ConfirmarReserva ⟨exConfirmado, [], [], []⟩ 100 =
      (⟨exConfirmado, [], [], [.confirmar 100 true]⟩, none) := by
  decide

/-! ## C7: `produtoRepository.ConfirmarReserva` is all-or-nothing on a negative balance -/

theorem confirmarLoop_negativo : ∀ (rs : List ReservaEstoque) (db : DB),
    db.chaveProdutos →
    (∀ r ∈ rs, 0 ≤ r.Quantidade ∧ r.Quantidade < 9223372036854775808) →
    (∀ r ∈ rs, ∃ p ∈ db.produtos, p.ID = r.ProdutoID) →
    (∀ p ∈ db.produtos, 0 ≤ p.Saldo ∧ p.Saldo < 9223372036854775808) →
    (∃ p ∈ db.produtos, p.Saldo < totalPor rs p.ID) →
    confirmarLoop rs db = .error .ErrSaldoNegativo := by
  intro rs
  induction rs with
  | nil =>
    intro db _ _ _ hs hex
    obtain ⟨p, hp, hlt⟩ := hex
    rw [totalPor_nil] at hlt
    have := (hs p hp).1
    omega
  | cons r rs ih =>
    intro db hk hq href hs hex
    obtain ⟨p, hp, hpid, hfirst⟩ := firstProduto_of_ref hk (href r (List.mem_cons_self _ _))
    obtain ⟨hq0, hq1⟩ := hq r (List.mem_cons_self _ _)
    obtain ⟨hs0, hs1⟩ := hs p hp
    have hw : wrapInt (p.Saldo - r.Quantidade) = p.Saldo - r.Quantidade :=
      wrapInt_eq ⟨by omega, by omega⟩
    unfold confirmarLoop
    simp only [hfirst, hw]
    by_cases hneg : p.Saldo - r.Quantidade < 0
    · simp [hneg]
    · simp only [hneg, if_false]
      apply ih
      · exact saveProduto_chave _ hk
      · exact fun x hx => hq x (List.mem_cons_of_mem _ hx)
      · exact fun x hx => saveProduto_ref _ (href x (List.mem_cons_of_mem _ hx))
      · intro x hx
        rcases mem_saveProduto hx with ⟨rfl, _⟩ | ⟨hx1, _⟩
        · exact ⟨by simp only; omega, by simp only; omega⟩
        · exact hs x hx1
      · obtain ⟨p0, hp0, hlt⟩ := hex
        rw [totalPor_cons] at hlt
        by_cases hsame : p0.ID = p.ID
        · have hpp : p0 = p := List.inj_on_of_nodup_map hk hp0 hp hsame
          subst hpp
          refine ⟨{ p0 with Saldo := p0.Saldo - r.Quantidade,
                            Reservado := wrapInt (p0.Reservado - r.Quantidade) }, ?_, ?_⟩
          · show _ ∈ (db.saveProduto _).produtos
            unfold DB.saveProduto
            simp only [List.mem_map]
            exact ⟨p0, hp0, by simp⟩
          · rw [if_pos hpid.symm] at hlt
            simp only
            omega
        · refine ⟨p0, ?_, ?_⟩
          · show _ ∈ (db.saveProduto _).produtos
            unfold DB.saveProduto
            simp only [List.mem_map]
            exact ⟨p0, hp0, by simp [hsame]⟩
          · have : ¬ r.ProdutoID = p0.ID := fun h => hsame (by rw [← h, hpid])
            simp only [this, if_false] at hlt
            omega

/-- C7: in a database with primary keys, non-negative Go-int balances, and a group whose
`PENDENTE` rows have non-negative Go-int quantities and refer to existing items, if the
group's quantities on some item add up to more than its balance (so that confirming them
makes the balance negative), `produtoRepository.ConfirmarReserva` returns `ErrSaldoNegativo` and the database
after the call is the one before it: no balance, reserved or status has changed. -/
theorem confirmarReserva_atomico (db : DB) (notaID : UUID) (hk : db.chaveProdutos)
    (hs : ∀ p ∈ db.produtos, 0 ≤ p.Saldo ∧ p.Saldo < 9223372036854775808)
    (hq : ∀ r ∈ db.pendentes notaID, 0 ≤ r.Quantidade ∧ r.Quantidade < 9223372036854775808)
    (href : ∀ r ∈ db.pendentes notaID, ∃ p ∈ db.produtos, p.ID = r.ProdutoID)
    (hex : ∃ p ∈ db.produtos, p.Saldo < totalPor (db.pendentes notaID) p.ID) :
    produtoRepository.ConfirmarReserva db notaID = (db, some .ErrSaldoNegativo) := by
  unfold produtoRepository.ConfirmarReserva
  rw [confirmarLoop_negativo _ db hk hq href hs hex]

theorem confirmarReserva_atomico_witness :
    produtoRepository.ConfirmarReserva exNegativo 100 = (exNegativo, some .ErrSaldoNegativo) :=
  confirmarReserva_atomico exNegativo 100 (by decide) (by decide) (by decide) (by decide)
    (by decide)

/-! ## C8: `produtoRepository.CancelarReserva` twice -/

theorem firstProduto_isSome {db : DB} {id : UUID} (h : ∃ p ∈ db.produtos, p.ID = id) :
    ∃ p, db.firstProduto id = some p := by
  cases hf : db.firstProduto id with
  | some p => exact ⟨p, rfl⟩
  | none =>
    obtain ⟨p, hp, hid⟩ := h
    unfold DB.firstProduto at hf
    rw [List.find?_eq_none] at hf
    have := hf p hp
    simp [hid] at this

theorem cancelarLoop_sucesso : ∀ (rs : List ReservaEstoque) (db : DB),
    (∀ r ∈ rs, ∃ p ∈ db.produtos, p.ID = r.ProdutoID) →
    ∃ db1, cancelarLoop rs db = .ok db1 ∧ db1.reservas = marcar "CANCELADO" rs db.reservas := by
  intro rs
  induction rs with
  | nil =>
    intro db _
    exact ⟨db, rfl, rfl⟩
  | cons r rs ih =>
    intro db href
    obtain ⟨p, hfirst⟩ := firstProduto_isSome (href r (List.mem_cons_self _ _))
    unfold cancelarLoop
    simp only [hfirst]
    obtain ⟨db1, h1, h2⟩ := ih _
      (fun x hx => saveProduto_ref _ (href x (List.mem_cons_of_mem _ hx)))
    exact ⟨db1, h1, h2⟩

theorem mem_marcar (st : String) : ∀ (rs l : List ReservaEstoque) (x : ReservaEstoque),
    x ∈ marcar st rs l → (x ∈ l ∧ ∀ r ∈ rs, x.ID ≠ r.ID) ∨ x.Status = st := by
  intro rs
  induction rs with
  | nil =>
    intro l x hx
    left
    exact ⟨hx, by simp⟩
  | cons r rs ih =>
    intro l x hx
    have hstep : marcar st (r :: rs) l =
        marcar st rs (l.map (fun x => if x.ID = r.ID then { r with Status := st } else x)) := rfl
    rw [hstep] at hx
    rcases ih _ x hx with ⟨hm, hne⟩ | hst
    · obtain ⟨y, hy, hxy⟩ := List.mem_map.mp hm
      by_cases hsame : y.ID = r.ID
      · right
        rw [if_pos hsame] at hxy
        rw [← hxy]
      · left
        rw [if_neg hsame] at hxy
        subst hxy
        refine ⟨hy, ?_⟩
        intro r1 hr1
        rcases List.mem_cons.mp hr1 with rfl | h
        · exact hsame
        · exact hne r1 h
    · right
      exact hst

theorem pendentes_apos_cancelar {db db1 : DB} {notaID : UUID}
    (h : db1.reservas = marcar "CANCELADO" (db.pendentes notaID) db.reservas) :
    db1.pendentes notaID = [] := by
  unfold DB.pendentes
  rw [List.filter_eq_nil_iff, h]
  intro x hx
  rcases mem_marcar _ _ _ _ hx with ⟨hm, hne⟩ | hst
  · intro hp
    have hp2 : x.NotaFiscalID = notaID ∧ x.Status = "PENDENTE" := by simpa using hp
    exact hne x (mem_pendentes.mpr ⟨hm, hp2⟩) rfl
  · simp [hst]

theorem cancelarLoop_ok : ∀ (rs : List ReservaEstoque) (db : DB),
    db.chaveProdutos →
    (∀ r ∈ rs, 0 ≤ r.Quantidade ∧ r.Quantidade < 9223372036854775808) →
    (∀ r ∈ rs, ∃ p ∈ db.produtos, p.ID = r.ProdutoID) →
    (∀ p ∈ db.produtos, 0 ≤ p.Reservado ∧ p.Reservado < 9223372036854775808) →
    cancelarLoop rs db = .ok
      { produtos := db.produtos.map (fun p =>
          { p with Reservado :=
              if p.Reservado - totalPor rs p.ID < 0 then 0
              else p.Reservado - totalPor rs p.ID })
        reservas := marcar "CANCELADO" rs db.reservas } := by
  intro rs
  induction rs with
  | nil =>
    intro db _ _ _ hb
    simp only [cancelarLoop, totalPor_nil, marcar, List.foldl_nil, sub_zero, Except.ok.injEq]
    have : db.produtos.map (fun p =>
        { p with Reservado := if p.Reservado < 0 then 0 else p.Reservado }) = db.produtos := by
      conv_rhs => rw [← List.map_id db.produtos]
      apply List.map_congr_left
      intro x hx
      have := (hb x hx).1
      simp only [id]
      rw [if_neg (by omega)]
    rw [this]
  | cons r rs ih =>
    intro db hk hq href hb
    obtain ⟨p, hp, hpid, hfirst⟩ := firstProduto_of_ref hk (href r (List.mem_cons_self _ _))
    obtain ⟨hq0, hq1⟩ := hq r (List.mem_cons_self _ _)
    have hqs : ∀ x ∈ rs, 0 ≤ x.Quantidade ∧ x.Quantidade < 9223372036854775808 :=
      fun x hx => hq x (List.mem_cons_of_mem _ hx)
    obtain ⟨hb1, hb2⟩ := hb p hp
    have htp := totalPor_nonneg (fun x hx => (hqs x hx).1) p.ID
    have hw : wrapInt (p.Reservado - r.Quantidade) = p.Reservado - r.Quantidade :=
      wrapInt_eq ⟨by omega, by omega⟩
    unfold cancelarLoop
    simp only [hfirst, hw]
    rw [ih]
    · simp only [DB.saveReserva, DB.saveProduto, List.map_map, Except.ok.injEq, DB.mk.injEq]
      refine ⟨?_, rfl⟩
      apply List.map_congr_left
      intro x hx
      by_cases hsame : x.ID = p.ID
      · have hxp : x = p := List.inj_on_of_nodup_map hk hx hp hsame
        subst hxp
        simp only [Function.comp, if_true, totalPor_cons, if_pos hpid.symm]
        simp only [Produto.mk.injEq, true_and]
        split_ifs <;> omega
      · have hne : ¬ r.ProdutoID = x.ID := fun h => hsame (by rw [← h, hpid])
        simp only [Function.comp, hsame, if_false, totalPor_cons, hne, zero_add]
    · exact saveProduto_chave _ hk
    · exact hqs
    · exact fun x hx => saveProduto_ref _ (href x (List.mem_cons_of_mem _ hx))
    · intro x hx
      rcases mem_saveProduto hx with ⟨rfl, _⟩ | ⟨hx1, _⟩
      · simp only
        split_ifs <;> constructor <;> omega
      · exact hb x hx1

/-- C8: for every database in which the `PENDENTE` rows of the group refer to existing
items, `produtoRepository.CancelarReserva` called twice in a row returns no error both times, and the second
call leaves the database exactly as the first left it. Moreover, with primary keys,
non-negative Go-int `Reservado` and non-negative Go-int quantities, the first call sets every
item's `Reservado` to itself minus the sum of the group's `PENDENTE` quantities on it,
floored at zero, and turns exactly the group's `PENDENTE` rows to `CANCELADO`. -/
theorem cancelarReserva_idempotente (db : DB) (notaID : UUID)
    (href : ∀ r ∈ db.pendentes notaID, ∃ p ∈ db.produtos, p.ID = r.ProdutoID) :
    (produtoRepository.CancelarReserva db notaID).2 = none ∧
    produtoRepository.CancelarReserva (produtoRepository.CancelarReserva db notaID).1 notaID =
      ((produtoRepository.CancelarReserva db notaID).1, none) ∧
    (db.chaveProdutos → db.chaveReservas →
      (∀ p ∈ db.produtos, 0 ≤ p.Reservado ∧ p.Reservado < 9223372036854775808) →
      (∀ r ∈ db.pendentes notaID, 0 ≤ r.Quantidade ∧ r.Quantidade < 9223372036854775808) →
      (produtoRepository.CancelarReserva db notaID).1 =
        { produtos := db.produtos.map (fun p =>
            { p with Reservado :=
                if p.Reservado - totalPor (db.pendentes notaID) p.ID < 0 then 0
                else p.Reservado - totalPor (db.pendentes notaID) p.ID })
          reservas := db.reservas.map (fun x =>
            if x.NotaFiscalID = notaID ∧ x.Status = "PENDENTE" then
              { x with Status := "CANCELADO" }
            else x) }) := by
  obtain ⟨db1, h1, h2⟩ := cancelarLoop_sucesso (db.pendentes notaID) db href
  have hfst : produtoRepository.CancelarReserva db notaID = (db1, none) := by
    unfold produtoRepository.CancelarReserva
    rw [h1]
  refine ⟨by rw [hfst], ?_, ?_⟩
  · rw [hfst]
    show produtoRepository.CancelarReserva db1 notaID = (db1, none)
    unfold produtoRepository.CancelarReserva
    rw [pendentes_apos_cancelar h2]
    rfl
  · intro hk hkr hb hq
    rw [hfst]
    have := cancelarLoop_ok _ db hk hq href hb
    rw [h1, marcar_pendentes "CANCELADO" hkr] at this
    exact Except.ok.inj this

theorem cancelarReserva_idempotente_witness :
    (produtoRepository.CancelarReserva exReservado 100).1 =
        ⟨[⟨1, "A", "a", 10, 0⟩, ⟨2, "B", "b", 1, 1⟩],
          [⟨7, 1, 100, 6, "CANCELADO", 0⟩, ⟨8, 2, 200, 1, "PENDENTE", 0⟩]⟩ ∧
    produtoRepository.CancelarReserva (produtoRepository.CancelarReserva exReservado 100).1 100 =
      ((produtoRepository.CancelarReserva exReservado 100).1, none) :=
  ⟨((cancelarReserva_idempotente exReservado 100 (by decide)).2.2 (by decide) (by decide)
      (by decide) (by decide)).trans (by decide),
    (cancelarReserva_idempotente exReservado 100 (by decide)).2.1⟩

/-! ## C9: `produtoRepository.BaixarEstoque` -/

/-- C9: for an existing, well-formed item `p` and a quantity `qtd ≥ 0`, the ledger operation
`produtoRepository.BaixarEstoque` returns `ErrEstoqueInsuficiente` exactly when `p.Saldo < qtd`, and then the
database is unchanged; otherwise it returns no error, the rows of the item have `Saldo`
lowered by exactly `qtd` and `Reservado` unchanged, and the reservation table is
untouched. -/
theorem baixarEstoque_spec (db : DB) (produtoID : UUID) (qtd : Int) (p : Produto)
    (hp : db.firstProduto produtoID = some p) (hv : p.valido) (hq : 0 ≤ qtd) :
    ((produtoRepository.BaixarEstoque db produtoID qtd).2 = some .ErrEstoqueInsuficiente ↔ p.Saldo < qtd) ∧
    (p.Saldo < qtd → produtoRepository.BaixarEstoque db produtoID qtd = (db, some .ErrEstoqueInsuficiente)) ∧
    (qtd ≤ p.Saldo → produtoRepository.BaixarEstoque db produtoID qtd =
      ({ produtos := db.produtos.map (fun x =>
            if x.ID = produtoID then { p with Saldo := p.Saldo - qtd } else x)
         reservas := db.reservas }, none)) := by
  obtain ⟨h1, h2, h3, h4⟩ := hv
  have hid := (firstProduto_some hp).2
  by_cases hlt : p.Saldo < qtd
  · simp [produtoRepository.BaixarEstoque, hp, hlt]
  · have hw : wrapInt (p.Saldo - qtd) = p.Saldo - qtd := wrapInt_eq ⟨by omega, by omega⟩
    simp [produtoRepository.BaixarEstoque, hp, hlt, hw, DB.saveProduto, hid]

theorem baixarEstoque_spec_witness :
    produtoRepository.BaixarEstoque exDB 2 5 = (exDB, some .ErrEstoqueInsuficiente) ∧
    produtoRepository.BaixarEstoque exDB 1 4 = (⟨[⟨1, "A", "a", 6, 0⟩, ⟨2, "B", "b", 1, 0⟩], []⟩, none) :=
  ⟨(baixarEstoque_spec exDB 2 5 ⟨2, "B", "b", 1, 0⟩ (by decide) (by decide) (by decide)).2.1
      (by decide),
    (baixarEstoque_spec exDB 1 4 ⟨1, "A", "a", 10, 0⟩ (by decide) (by decide) (by decide)).2.2
      (by decide)⟩

/-! ## C10: the stock invariant along runs -/

theorem totalPor_append (a b : List ReservaEstoque) (pid : UUID) :
    totalPor (a ++ b) pid = totalPor a pid + totalPor b pid := by
  unfold totalPor
  simp [List.filter_append]

theorem pendSoma_append (a b : List ReservaEstoque) (pid : UUID) :
    pendSoma (a ++ b) pid = pendSoma a pid + pendSoma b pid := by
  unfold pendSoma
  rw [List.filter_append, totalPor_append]

theorem totalPor_eq_zero {rs : List ReservaEstoque} {pid : UUID}
    (h : ∀ r ∈ rs, r.ProdutoID ≠ pid) : totalPor rs pid = 0 := by
  induction rs with
  | nil => rfl
  | cons r rs ih =>
    rw [totalPor_cons, if_neg (h r (List.mem_cons_self _ _)),
      ih (fun x hx => h x (List.mem_cons_of_mem _ hx))]
    rfl

theorem le_totalPor {rs : List ReservaEstoque} {r : ReservaEstoque} (hr : r ∈ rs)
    (h : ∀ x ∈ rs, 0 ≤ x.Quantidade) : r.Quantidade ≤ totalPor rs r.ProdutoID := by
  induction rs with
  | nil => simp at hr
  | cons y rs ih =>
    have hy := h y (List.mem_cons_self _ _)
    have hrest : ∀ x ∈ rs, 0 ≤ x.Quantidade := fun x hx => h x (List.mem_cons_of_mem _ hx)
    have hnn := totalPor_nonneg hrest r.ProdutoID
    rw [totalPor_cons]
    rcases List.mem_cons.mp hr with rfl | hmem
    · rw [if_pos rfl]
      omega
    · have := ih hmem hrest
      split <;> omega

theorem pendSoma_nonneg {rs : List ReservaEstoque}
    (h : ∀ r ∈ rs, r.Status = "PENDENTE" → 0 ≤ r.Quantidade) (pid : UUID) :
    0 ≤ pendSoma rs pid := by
  unfold pendSoma
  apply totalPor_nonneg
  intro r hr
  obtain ⟨h1, h2⟩ := List.mem_filter.mp hr
  exact h r h1 (by simpa using h2)

theorem pendSoma_marcado (st : String) (hst : st ≠ "PENDENTE") (notaID pid : UUID) :
    ∀ l : List ReservaEstoque,
    pendSoma (l.map (fun x =>
        if x.NotaFiscalID = notaID ∧ x.Status = "PENDENTE" then { x with Status := st }
        else x)) pid +
      totalPor (l.filter (fun r => r.NotaFiscalID = notaID ∧ r.Status = "PENDENTE")) pid =
    pendSoma l pid := by
  intro l
  induction l with
  | nil => rfl
  | cons x l ih =>
    unfold pendSoma at ih ⊢
    by_cases h1 : x.Status = "PENDENTE"
    · by_cases h2 : x.NotaFiscalID = notaID
      · simp only [List.map_cons, h1, h2, and_self, if_true, List.filter_cons, hst,
          decide_False, decide_True, Bool.false_eq_true, if_false, totalPor_cons]
        omega
      · simp only [List.map_cons, h1, h2, false_and, if_false, List.filter_cons,
          decide_False, decide_True, Bool.false_eq_true, if_true, totalPor_cons, and_true]
        omega
    · simp only [List.map_cons, h1, and_false, if_false, List.filter_cons,
        decide_False, Bool.false_eq_true]
      exact ih

theorem criar_casos (db : DB) (req : CriarProdutoRequest) (novoID : UUID) :
    aplicar db (.criar req novoID) = db ∨
    ((∀ x ∈ db.produtos, x.ID ≠ novoID) ∧
      aplicar db (.criar req novoID) =
        { produtos := db.produtos ++ [⟨novoID, req.Codigo, req.Descricao, req.Saldo, 0⟩]
          reservas := db.reservas }) := by
  cases hc : db.produtos.find? (fun p => decide (p.Codigo = req.Codigo)) with
  | some _ =>
    left
    simp [aplicar, criarProdutoTx, hc]
  | none =>
    by_cases hany : db.produtos.any (fun x => decide (x.ID = novoID)) = true
    · left
      simp only [aplicar, criarProdutoTx, hc, hany, if_true]
    · right
      have hall : ∀ x ∈ db.produtos, x.ID ≠ novoID := by
        intro x hx h
        apply hany
        rw [List.any_eq_true]
        exact ⟨x, hx, by simpa using h⟩
      refine ⟨hall, ?_⟩
      simp only [aplicar, criarProdutoTx, hc, hany]
      rfl

theorem reservar_casos (db : DB) (reserva : ReservaEstoque) (novoID : UUID) :
    aplicar db (.reservar reserva novoID) = db ∨
    ∃ p, p ∈ db.produtos ∧ p.ID = reserva.ProdutoID ∧
      reserva.Quantidade ≤ wrapInt (p.Saldo - p.Reservado) ∧
      (∀ x ∈ db.reservas, x.ID ≠ (criada reserva novoID).ID) ∧
      aplicar db (.reservar reserva novoID) =
        { produtos := db.produtos.map (fun x =>
            if x.ID = p.ID then
              { p with Reservado := wrapInt (p.Reservado + reserva.Quantidade) }
            else x)
          reservas := db.reservas ++ [criada reserva novoID] } := by
  cases hf : db.firstProduto reserva.ProdutoID with
  | none =>
    left
    simp [aplicar, produtoRepository.ReservarEstoque, reservarEstoqueTx, hf]
  | some p =>
    obtain ⟨hp, hpid⟩ := firstProduto_some hf
    by_cases hpode : p.PodeReservar reserva.Quantidade = true
    · by_cases hany : (db.reservas.any
          (fun x => decide (x.ID = (criada reserva novoID).ID))) = true
      · left
        simp only [aplicar, produtoRepository.ReservarEstoque, reservarEstoqueTx, hf, hpode, DB.saveProduto, hany]
        rfl
      · right
        have hall : ∀ x ∈ db.reservas, x.ID ≠ (criada reserva novoID).ID := by
          intro x hx h
          apply hany
          rw [List.any_eq_true]
          exact ⟨x, hx, by simpa using h⟩
        have hq : reserva.Quantidade ≤ wrapInt (p.Saldo - p.Reservado) := by
          unfold Produto.PodeReservar at hpode
          simpa using hpode
        refine ⟨p, hp, hpid, hq, hall, ?_⟩
        simp only [aplicar, produtoRepository.ReservarEstoque, reservarEstoqueTx, hf, hpode, DB.saveProduto, hany]
        rfl
    · left
      simp [aplicar, produtoRepository.ReservarEstoque, reservarEstoqueTx, hf, hpode]

theorem baixar_casos (db : DB) (produtoID : UUID) (qtd : Int) :
    aplicar db (.baixar produtoID qtd) = db ∨
    ∃ p, p ∈ db.produtos ∧ p.ID = produtoID ∧ qtd ≤ p.Saldo ∧
      aplicar db (.baixar produtoID qtd) =
        { produtos := db.produtos.map (fun x =>
            if x.ID = p.ID then { p with Saldo := wrapInt (p.Saldo - qtd) } else x)
          reservas := db.reservas } := by
  cases hf : db.firstProduto produtoID with
  | none =>
    left
    simp [aplicar, produtoRepository.BaixarEstoque, hf]
  | some p =>
    obtain ⟨hp, hpid⟩ := firstProduto_some hf
    by_cases hlt : p.Saldo < qtd
    · left
      simp [aplicar, produtoRepository.BaixarEstoque, hf, hlt]
    · right
      refine ⟨p, hp, hpid, by omega, ?_⟩
      simp [aplicar, produtoRepository.BaixarEstoque, hf, hlt, DB.saveProduto]

theorem inv_vazio : Inv vazio :=
  ⟨List.nodup_nil, List.nodup_nil, by simp [vazio], by simp [vazio], by simp [vazio]⟩

theorem inv_criar {db : DB} (hi : Inv db) (req : CriarProdutoRequest) (novoID : UUID)
    (hv : (Operacao.criar req novoID).valida) :
    Inv (aplicar db (.criar req novoID)) ∧
      (Coberto db → Coberto (aplicar db (.criar req novoID))) := by
  rcases criar_casos db req novoID with h | ⟨hall, h⟩
  · rw [h]
    exact ⟨hi, id⟩
  · rw [h]
    have hzero : pendSoma db.reservas novoID = 0 := by
      unfold pendSoma
      apply totalPor_eq_zero
      intro r hr heq
      obtain ⟨p, hp, hpid⟩ := hi.refs r (List.mem_filter.mp hr).1
      exact hall p hp (hpid.trans heq)
    refine ⟨⟨?_, hi.chaveR, ?_, hi.qpos, ?_⟩, ?_⟩
    · unfold DB.chaveProdutos
      simp only [List.map_append, List.map_cons, List.map_nil]
      rw [List.nodup_append]
      refine ⟨hi.chaveP, List.nodup_singleton _, ?_⟩
      intro a ha hb
      obtain ⟨x, hx, rfl⟩ := List.mem_map.mp ha
      exact hall x hx (List.mem_singleton.mp hb)
    · intro p hp
      rcases List.mem_append.mp hp with h1 | h1
      · exact hi.prod p h1
      · rw [List.mem_singleton] at h1
        subst h1
        obtain ⟨h0, h1⟩ := hv
        refine ⟨⟨h0, h1, le_refl _, by norm_num⟩, ?_⟩
        show pendSoma db.reservas novoID ≤ 0
        rw [hzero]
    · intro r hr
      obtain ⟨p, hp, hpid⟩ := hi.refs r hr
      exact ⟨p, List.mem_append_left _ hp, hpid⟩
    · intro hc p hp
      rcases List.mem_append.mp hp with h1 | h1
      · exact hc p h1
      · rw [List.mem_singleton] at h1
        subst h1
        exact hv.1

theorem inv_baixar {db : DB} (hi : Inv db) (produtoID : UUID) (qtd : Int)
    (hv : (Operacao.baixar produtoID qtd).valida) :
    Inv (aplicar db (.baixar produtoID qtd)) := by
  rcases baixar_casos db produtoID qtd with h | ⟨p, hp, hpid, hle, h⟩
  · rw [h]
    exact hi
  · rw [h]
    have hq : 0 < qtd := hv
    obtain ⟨⟨h1, h2, h3, h4⟩, h5⟩ := hi.prod p hp
    have hw : wrapInt (p.Saldo - qtd) = p.Saldo - qtd := wrapInt_eq ⟨by omega, by omega⟩
    rw [hw]
    have hids : (db.produtos.map (fun x =>
        if x.ID = p.ID then { p with Saldo := p.Saldo - qtd } else x)).map (fun p => p.ID) =
        db.produtos.map (fun p => p.ID) := by
      rw [List.map_map]
      apply List.map_congr_left
      intro x _
      by_cases hx : x.ID = p.ID <;> simp [hx]
    refine ⟨?_, hi.chaveR, ?_, hi.qpos, ?_⟩
    · unfold DB.chaveProdutos
      rw [hids]
      exact hi.chaveP
    · intro x hx
      obtain ⟨y, hy, rfl⟩ := List.mem_map.mp hx
      by_cases hsame : y.ID = p.ID
      · simp only [hsame, if_true]
        exact ⟨⟨by simp only; omega, by simp only; omega, h3, h4⟩, h5⟩
      · simp only [hsame, if_false]
        exact hi.prod y hy
    · intro r hr
      obtain ⟨y, hy, hyid⟩ := hi.refs r hr
      have : r.ProdutoID ∈ (db.produtos.map (fun x =>
          if x.ID = p.ID then { p with Saldo := p.Saldo - qtd } else x)).map
            (fun p => p.ID) := by
        rw [hids]
        exact List.mem_map.mpr ⟨y, hy, hyid⟩
      obtain ⟨z, hz, hzid⟩ := List.mem_map.mp this
      exact ⟨z, hz, hzid⟩

theorem pendSoma_singleton (r : ReservaEstoque) (pid : UUID) :
    pendSoma [r] pid =
      if r.Status = "PENDENTE" ∧ r.ProdutoID = pid then r.Quantidade else 0 := by
  unfold pendSoma totalPor
  by_cases h1 : r.Status = "PENDENTE" <;> by_cases h2 : r.ProdutoID = pid <;>
    simp [List.filter_cons, h1, h2]

theorem criada_campos (reserva : ReservaEstoque) (novoID : UUID) :
    (criada reserva novoID).ProdutoID = reserva.ProdutoID ∧
      (criada reserva novoID).Quantidade = reserva.Quantidade := ⟨rfl, rfl⟩

theorem inv_reservar {db : DB} (hi : Inv db) (reserva : ReservaEstoque) (novoID : UUID)
    (hv : (Operacao.reservar reserva novoID).valida) :
    Inv (aplicar db (.reservar reserva novoID)) ∧
      (Coberto db → Coberto (aplicar db (.reservar reserva novoID))) := by
  rcases reservar_casos db reserva novoID with h | ⟨p, hp, hpid, hle, hall, h⟩
  · rw [h]
    exact ⟨hi, id⟩
  · rw [h]
    have hq : 0 < reserva.Quantidade := hv
    obtain ⟨⟨h1, h2, h3, h4⟩, h5⟩ := hi.prod p hp
    have hw : wrapInt (p.Saldo - p.Reservado) = p.Saldo - p.Reservado :=
      wrapInt_eq ⟨by omega, by omega⟩
    rw [hw] at hle
    have hw2 : wrapInt (p.Reservado + reserva.Quantidade) = p.Reservado + reserva.Quantidade :=
      wrapInt_eq ⟨by omega, by omega⟩
    rw [hw2]
    obtain ⟨hc1, hc2⟩ := criada_campos reserva novoID
    have hids : (db.produtos.map (fun x =>
        if x.ID = p.ID then { p with Reservado := p.Reservado + reserva.Quantidade }
        else x)).map (fun p => p.ID) = db.produtos.map (fun p => p.ID) := by
      rw [List.map_map]
      apply List.map_congr_left
      intro x _
      by_cases hx : x.ID = p.ID <;> simp [hx]
    refine ⟨⟨?_, ?_, ?_, ?_, ?_⟩, ?_⟩
    · unfold DB.chaveProdutos
      rw [hids]
      exact hi.chaveP
    · unfold DB.chaveReservas
      simp only [List.map_append, List.map_cons, List.map_nil]
      rw [List.nodup_append]
      refine ⟨hi.chaveR, List.nodup_singleton _, ?_⟩
      intro a ha hb
      obtain ⟨x, hx, rfl⟩ := List.mem_map.mp ha
      exact hall x hx (List.mem_singleton.mp hb)
    · intro x hx
      obtain ⟨y, hy, rfl⟩ := List.mem_map.mp hx
      by_cases hsame : y.ID = p.ID
      · simp only [hsame, if_true]
        refine ⟨⟨h1, h2, by simp only; omega, by simp only; omega⟩, ?_⟩
        show pendSoma (db.reservas ++ [criada reserva novoID]) p.ID ≤
          p.Reservado + reserva.Quantidade
        rw [pendSoma_append, pendSoma_singleton, hc2]
        split <;> omega
      · simp only [hsame, if_false]
        refine ⟨(hi.prod y hy).1, ?_⟩
        show pendSoma (db.reservas ++ [criada reserva novoID]) y.ID ≤ y.Reservado
        have hne : ¬ ((criada reserva novoID).Status = "PENDENTE" ∧
            (criada reserva novoID).ProdutoID = y.ID) := by
          rintro ⟨_, h2⟩
          exact hsame (by rw [← h2, hc1, hpid])
        rw [pendSoma_append, pendSoma_singleton, if_neg hne, add_zero]
        exact (hi.prod y hy).2
    · intro r hr hst
      rcases List.mem_append.mp hr with h1 | h1
      · exact hi.qpos r h1 hst
      · rw [List.mem_singleton] at h1
        subst h1
        rw [hc2]
        omega
    · intro r hr
      have hmem : r.ProdutoID ∈ db.produtos.map (fun p => p.ID) := by
        rcases List.mem_append.mp hr with h1 | h1
        · obtain ⟨y, hy, hyid⟩ := hi.refs r h1
          exact List.mem_map.mpr ⟨y, hy, hyid⟩
        · rw [List.mem_singleton] at h1
          subst h1
          exact List.mem_map.mpr ⟨p, hp, by rw [hc1, hpid]⟩
      rw [← hids] at hmem
      obtain ⟨z, hz, hzid⟩ := List.mem_map.mp hmem
      exact ⟨z, hz, hzid⟩
    · intro hc x hx
      obtain ⟨y, hy, rfl⟩ := List.mem_map.mp hx
      by_cases hsame : y.ID = p.ID
      · simp only [hsame, if_true]
        omega
      · simp only [hsame, if_false]
        exact hc y hy

theorem totalPor_pendentes_le {db : DB}
    (hq : ∀ r ∈ db.reservas, r.Status = "PENDENTE" → 0 ≤ r.Quantidade) (notaID pid : UUID) :
    totalPor (db.pendentes notaID) pid ≤ pendSoma db.reservas pid := by
  have h := pendSoma_marcado "CONFIRMADO" (by decide) notaID pid db.reservas
  have hnn : 0 ≤ pendSoma (db.reservas.map (fun x =>
      if x.NotaFiscalID = notaID ∧ x.Status = "PENDENTE" then
        { x with Status := "CONFIRMADO" }
      else x)) pid := by
    apply pendSoma_nonneg
    intro r hr hst
    obtain ⟨x, hx, rfl⟩ := List.mem_map.mp hr
    by_cases hc : x.NotaFiscalID = notaID ∧ x.Status = "PENDENTE"
    · rw [if_pos hc] at hst
      simp at hst
    · rw [if_neg hc] at hst ⊢
      exact hq x hx hst
  unfold DB.pendentes
  omega

theorem inv_marcado {db : DB} (hi : Inv db) (st : String) (hst : st ≠ "PENDENTE")
    (notaID : UUID) (g : Produto → Produto) (hgid : ∀ p, (g p).ID = p.ID)
    (hg : ∀ p ∈ db.produtos, (g p).valido ∧
      pendSoma db.reservas p.ID - totalPor (db.pendentes notaID) p.ID ≤ (g p).Reservado) :
    Inv { produtos := db.produtos.map g
          reservas := db.reservas.map (fun x =>
            if x.NotaFiscalID = notaID ∧ x.Status = "PENDENTE" then { x with Status := st }
            else x) } := by
  have hids : (db.produtos.map g).map (fun p => p.ID) = db.produtos.map (fun p => p.ID) := by
    rw [List.map_map]
    apply List.map_congr_left
    intro x _
    exact hgid x
  have hrids : (db.reservas.map (fun x =>
      if x.NotaFiscalID = notaID ∧ x.Status = "PENDENTE" then { x with Status := st }
      else x)).map (fun r => r.ID) = db.reservas.map (fun r => r.ID) := by
    rw [List.map_map]
    apply List.map_congr_left
    intro x _
    by_cases hc : x.NotaFiscalID = notaID ∧ x.Status = "PENDENTE" <;> simp [hc]
  refine ⟨?_, ?_, ?_, ?_, ?_⟩
  · unfold DB.chaveProdutos
    rw [hids]
    exact hi.chaveP
  · unfold DB.chaveReservas
    rw [hrids]
    exact hi.chaveR
  · intro x hx
    obtain ⟨y, hy, rfl⟩ := List.mem_map.mp hx
    refine ⟨(hg y hy).1, ?_⟩
    have h := pendSoma_marcado st hst notaID y.ID db.reservas
    have h2 := (hg y hy).2
    rw [hgid]
    unfold DB.pendentes at h2
    show pendSoma (db.reservas.map _) y.ID ≤ _
    omega
  · intro r hr hs
    obtain ⟨x, hx, rfl⟩ := List.mem_map.mp hr
    by_cases hc : x.NotaFiscalID = notaID ∧ x.Status = "PENDENTE"
    · rw [if_pos hc] at hs
      exact (hst hs).elim
    · rw [if_neg hc] at hs ⊢
      exact hi.qpos x hx hs
  · intro r hr
    obtain ⟨x, hx, rfl⟩ := List.mem_map.mp hr
    obtain ⟨y, hy, hyid⟩ := hi.refs x hx
    refine ⟨g y, List.mem_map.mpr ⟨y, hy, rfl⟩, ?_⟩
    rw [hgid, hyid]
    by_cases hc : x.NotaFiscalID = notaID ∧ x.Status = "PENDENTE" <;> simp [hc]

theorem pendentes_limites {db : DB} (hi : Inv db) (notaID : UUID) :
    (∀ r ∈ db.pendentes notaID, 0 ≤ r.Quantidade ∧ r.Quantidade < 9223372036854775808) ∧
    (∀ r ∈ db.pendentes notaID, ∃ p ∈ db.produtos, p.ID = r.ProdutoID) ∧
    (∀ p ∈ db.produtos, 0 ≤ totalPor (db.pendentes notaID) p.ID ∧
      totalPor (db.pendentes notaID) p.ID ≤ pendSoma db.reservas p.ID) := by
  have hq : ∀ r ∈ db.pendentes notaID, 0 ≤ r.Quantidade :=
    fun r hr => hi.qpos r (mem_pendentes.mp hr).1 (mem_pendentes.mp hr).2.2
  have href : ∀ r ∈ db.pendentes notaID, ∃ p ∈ db.produtos, p.ID = r.ProdutoID :=
    fun r hr => hi.refs r (mem_pendentes.mp hr).1
  refine ⟨?_, href, fun p _ =>
    ⟨totalPor_nonneg hq p.ID, totalPor_pendentes_le hi.qpos notaID p.ID⟩⟩
  intro r hr
  refine ⟨hq r hr, ?_⟩
  obtain ⟨p, hp, hpid⟩ := href r hr
  have h1 := le_totalPor hr hq
  have h2 := totalPor_pendentes_le hi.qpos notaID p.ID
  obtain ⟨⟨_, _, _, h6⟩, h7⟩ := hi.prod p hp
  rw [hpid] at h2 h7
  omega

theorem inv_confirmar {db : DB} (hi : Inv db) (notaID : UUID) :
    Inv (aplicar db (.confirmar notaID)) ∧
      (Coberto db → Coberto (aplicar db (.confirmar notaID))) := by
  obtain ⟨hqb, href, htot⟩ := pendentes_limites hi notaID
  show Inv (produtoRepository.ConfirmarReserva db notaID).1 ∧ (Coberto db → Coberto (produtoRepository.ConfirmarReserva db notaID).1)
  by_cases hex : ∃ p ∈ db.produtos, p.Saldo < totalPor (db.pendentes notaID) p.ID
  · have hfail : produtoRepository.ConfirmarReserva db notaID = (db, some .ErrSaldoNegativo) := by
      unfold produtoRepository.ConfirmarReserva
      rw [confirmarLoop_negativo _ db hi.chaveP hqb href
        (fun p hp => ⟨(hi.prod p hp).1.1, (hi.prod p hp).1.2.1⟩) hex]
    rw [hfail]
    exact ⟨hi, id⟩
  · have hs : ∀ p ∈ db.produtos, totalPor (db.pendentes notaID) p.ID ≤ p.Saldo := by
      intro p hp
      by_contra hlt
      exact hex ⟨p, hp, by omega⟩
    rw [confirmarReserva_efeito db notaID hi.chaveP hi.chaveR (fun p hp => (hi.prod p hp).1)
      (fun r hr => (hqb r hr).1) href hs]
    refine ⟨inv_marcado hi "CONFIRMADO" (by decide) notaID _ (fun _ => rfl) ?_, ?_⟩
    · intro p hp
      obtain ⟨⟨h1, h2, h3, h4⟩, h5⟩ := hi.prod p hp
      obtain ⟨h6, h7⟩ := htot p hp
      have h8 := hs p hp
      exact ⟨⟨by simp only; omega, by simp only; omega, by simp only; omega,
        by simp only; omega⟩, by simp only; omega⟩
    · intro hc x hx
      obtain ⟨y, hy, rfl⟩ := List.mem_map.mp hx
      have := hc y hy
      simp only
      omega

theorem inv_cancelar {db : DB} (hi : Inv db) (notaID : UUID) :
    Inv (aplicar db (.cancelar notaID)) ∧
      (Coberto db → Coberto (aplicar db (.cancelar notaID))) := by
  obtain ⟨hqb, href, htot⟩ := pendentes_limites hi notaID
  show Inv (produtoRepository.CancelarReserva db notaID).1 ∧ (Coberto db → Coberto (produtoRepository.CancelarReserva db notaID).1)
  have hok : produtoRepository.CancelarReserva db notaID =
      ({ produtos := db.produtos.map (fun p =>
            { p with Reservado :=
                if p.Reservado - totalPor (db.pendentes notaID) p.ID < 0 then 0
                else p.Reservado - totalPor (db.pendentes notaID) p.ID })
         reservas := db.reservas.map (fun x =>
            if x.NotaFiscalID = notaID ∧ x.Status = "PENDENTE" then
              { x with Status := "CANCELADO" }
            else x) }, none) := by
    unfold produtoRepository.CancelarReserva
    rw [cancelarLoop_ok _ db hi.chaveP hqb href
      (fun p hp => ⟨(hi.prod p hp).1.2.2.1, (hi.prod p hp).1.2.2.2⟩),
      marcar_pendentes "CANCELADO" hi.chaveR]
  rw [hok]
  refine ⟨inv_marcado hi "CANCELADO" (by decide) notaID _ (fun _ => rfl) ?_, ?_⟩
  · intro p hp
    obtain ⟨⟨h1, h2, h3, h4⟩, h5⟩ := hi.prod p hp
    obtain ⟨h6, h7⟩ := htot p hp
    refine ⟨⟨h1, h2, ?_, ?_⟩, ?_⟩ <;> simp only <;> split_ifs <;> omega
  · intro hc x hx
    obtain ⟨y, hy, rfl⟩ := List.mem_map.mp hx
    have := hc y hy
    obtain ⟨⟨h1, h2, h3, h4⟩, h5⟩ := hi.prod y hy
    obtain ⟨h6, h7⟩ := htot y hy
    simp only
    split_ifs <;> omega

theorem inv_aplicar {db : DB} (hi : Inv db) (o : Operacao) (hv : o.valida) :
    Inv (aplicar db o) ∧ (o.ehBaixa = false → Coberto db → Coberto (aplicar db o)) := by
  cases o with
  | criar req novoID => exact ⟨(inv_criar hi req novoID hv).1, fun _ => (inv_criar hi req novoID hv).2⟩
  | reservar reserva novoID =>
    exact ⟨(inv_reservar hi reserva novoID hv).1, fun _ => (inv_reservar hi reserva novoID hv).2⟩
  | confirmar notaID => exact ⟨(inv_confirmar hi notaID).1, fun _ => (inv_confirmar hi notaID).2⟩
  | cancelar notaID => exact ⟨(inv_cancelar hi notaID).1, fun _ => (inv_cancelar hi notaID).2⟩
  | baixar produtoID qtd =>
    refine ⟨inv_baixar hi produtoID qtd hv, fun h => ?_⟩
    simp [Operacao.ehBaixa] at h

theorem inv_executar : ∀ (ops : List Operacao) (db : DB), Inv db → (∀ o ∈ ops, o.valida) →
    Inv (executar db ops) ∧
      ((∀ o ∈ ops, o.ehBaixa = false) → Coberto db → Coberto (executar db ops)) := by
  intro ops
  induction ops with
  | nil =>
    intro db hi _
    exact ⟨hi, fun _ h => h⟩
  | cons o ops ih =>
    intro db hi hv
    obtain ⟨h1, h2⟩ := inv_aplicar hi o (hv o (List.mem_cons_self _ _))
    obtain ⟨h3, h4⟩ := ih (aplicar db o) h1 (fun x hx => hv x (List.mem_cons_of_mem _ hx))
    refine ⟨h3, fun hb hc => ?_⟩
    exact h4 (fun x hx => hb x (List.mem_cons_of_mem _ hx))
      (h2 (hb o (List.mem_cons_self _ _)) hc)

/-- C10 (as amended): in every state reached from the empty database by creating items
(non-negative balance) and applying `produtoRepository.ReservarEstoque`, `produtoRepository.ConfirmarReserva`,
`produtoRepository.CancelarReserva` and `produtoRepository.BaixarEstoque` with positive quantities, every item has
`0 ≤ Reservado` and `0 ≤ Saldo`; `Reservado ≤ Saldo` holds in every state reached without
`produtoRepository.BaixarEstoque`, and from any reachable state in which it holds it still holds after a
creation, `produtoRepository.ReservarEstoque`, `produtoRepository.ConfirmarReserva` or `produtoRepository.CancelarReserva`. -/
theorem invariante_estoque (ops : List Operacao) (hv : ∀ o ∈ ops, o.valida) :
    (∀ p ∈ (executar vazio ops).produtos, 0 ≤ p.Reservado ∧ 0 ≤ p.Saldo) ∧
    ((∀ o ∈ ops, o.ehBaixa = false) →
      ∀ p ∈ (executar vazio ops).produtos, p.Reservado ≤ p.Saldo) ∧
    (∀ o : Operacao, o.valida → o.ehBaixa = false →
      (∀ p ∈ (executar vazio ops).produtos, p.Reservado ≤ p.Saldo) →
      ∀ p ∈ (aplicar (executar vazio ops) o).produtos, p.Reservado ≤ p.Saldo) := by
  obtain ⟨hi, hc⟩ := inv_executar ops vazio inv_vazio hv
  refine ⟨fun p hp => ⟨(hi.prod p hp).1.2.2.1, (hi.prod p hp).1.1⟩, ?_, ?_⟩
  · intro hb
    exact hc hb (by intro p hp; simp [vazio] at hp)
  · intro o ho hb hcob
    exact (inv_aplicar hi o ho).2 hb hcob

theorem invariante_estoque_witness :
    executar vazio exRun = ⟨[⟨1, "A", "a", 4, 0⟩], [⟨7, 1, 100, 6, "CONFIRMADO", 0⟩]⟩ ∧
    ∀ p ∈ (executar vazio exRun).produtos, p.Reservado ≤ p.Saldo :=
  ⟨by decide, (invariante_estoque exRun (by decide)).2.1 (by decide)⟩

/-- C10 (counterexample): item `1` is created with balance 10, 6 are reserved, then
`produtoRepository.BaixarEstoque` deducts 10 (allowed, since it compares with the balance only): the item is
left with `Saldo = 0` and `Reservado = 6`, so `Reservado ≤ Saldo` fails in a reachable
state. -/
theorem invariante_quebrada_por_baixa :
    (∀ o ∈ [Operacao.criar ⟨"A", "a", 10⟩ 1, .reservar ⟨0, 1, 100, 6, "", 0⟩ 7, .baixar 1 10],
      o.valida) ∧
    executar vazio [.criar ⟨"A", "a", 10⟩ 1, .reservar ⟨0, 1, 100, 6, "", 0⟩ 7, .baixar 1 10] =
      ⟨[⟨1, "A", "a", 0, 6⟩], [⟨7, 1, 100, 6, "PENDENTE", 0⟩]⟩ ∧
    ¬ (∀ p ∈ (executar vazio
        [.criar ⟨"A", "a", 10⟩ 1, .reservar ⟨0, 1, 100, 6, "", 0⟩ 7, .baixar 1 10]).produtos,
      0 ≤ p.Reservado ∧ p.Reservado ≤ p.Saldo) := by
  decide

/-! ## C11, C12: the lock manager -/

theorem lockStore_get_del_self (s : LockStore) (key : String) : (s.del key).get key = none := by
  unfold LockStore.get LockStore.del
  have : List.find? (fun e => decide (e.key = key))
      (List.filter (fun e => decide (e.key ≠ key)) s) = none := by
    rw [List.find?_eq_none]
    intro x hx
    have := (List.mem_filter.mp hx).2
    simpa using this
  rw [this]
  rfl

theorem lockStore_get_del_other (s : LockStore) {key k : String} (h : k ≠ key) :
    (s.del key).get k = s.get k := by
  unfold LockStore.get LockStore.del
  have hf : List.find? (fun e => decide (e.key = k))
      (List.filter (fun e => decide (e.key ≠ key)) s) =
      List.find? (fun e => decide (e.key = k)) s := by
    induction s with
    | nil => rfl
    | cons e s ih =>
      by_cases h1 : e.key = key
      · have h2 : ¬ e.key = k := fun h3 => h (h3.symm.trans h1)
        rw [List.filter_cons, if_neg (by simpa using h1), List.find?_cons_of_neg _ (by simpa using h2)]
        exact ih
      · rw [List.filter_cons, if_pos (by simpa using h1)]
        by_cases h2 : e.key = k
        · rw [List.find?_cons_of_pos _ (by simpa using h2),
            List.find?_cons_of_pos _ (by simpa using h2)]
        · rw [List.find?_cons_of_neg _ (by simpa using h2),
            List.find?_cons_of_neg _ (by simpa using h2)]
          exact ih
  rw [hf]

theorem lockStore_get_append_new (s : LockStore) (key value : String) (ttl : Nat)
    (h : s.get key = none) :
    LockStore.get (s ++ [{ key := key, value := value, ttl := ttl }]) key = some value := by
  unfold LockStore.get at h ⊢
  have hn : List.find? (fun e => decide (e.key = key)) s = none := by
    cases hf : List.find? (fun e => decide (e.key = key)) s with
    | none => rfl
    | some e => rw [hf] at h; simp at h
  rw [List.find?_append, hn]
  simp

/-- C11: for every lock store, resource and token, `DistributedLock.ReleaseLock` returns no
error exactly when the value stored under `lock:<resource>` is the presented token; in that
case the key is deleted (it is absent afterwards, every other key keeps its value); when the
stored value differs or the key is absent, it returns an error and the lock store is the one
before the call. -/
theorem releaseLock_somente_dono (s : LockStore) (resource lockValue : String) :
    ((DistributedLock.ReleaseLock s resource lockValue).2 = none ↔
      s.get ("lock:" ++ resource) = some lockValue) ∧
    (s.get ("lock:" ++ resource) = some lockValue →
      DistributedLock.ReleaseLock s resource lockValue = (s.del ("lock:" ++ resource), none) ∧
      (DistributedLock.ReleaseLock s resource lockValue).1.get ("lock:" ++ resource) = none ∧
      ∀ k, k ≠ "lock:" ++ resource →
        (DistributedLock.ReleaseLock s resource lockValue).1.get k = s.get k) ∧
    (s.get ("lock:" ++ resource) ≠ some lockValue →
      (DistributedLock.ReleaseLock s resource lockValue).1 = s ∧
      (DistributedLock.ReleaseLock s resource lockValue).2 =
        some (.Errorf "lock não pertence a este cliente ou já expirou")) := by
  by_cases h : s.get ("lock:" ++ resource) = some lockValue
  · have hr : DistributedLock.ReleaseLock s resource lockValue =
        (s.del ("lock:" ++ resource), none) := by
      simp [DistributedLock.ReleaseLock, h]
    refine ⟨⟨fun _ => h, fun _ => by rw [hr]⟩, fun _ => ?_, fun hne => (hne h).elim⟩
    rw [hr]
    exact ⟨rfl, lockStore_get_del_self s _, fun k hk => lockStore_get_del_other s hk⟩
  · have hr : DistributedLock.ReleaseLock s resource lockValue =
        (s, some (.Errorf "lock não pertence a este cliente ou já expirou")) := by
      simp [DistributedLock.ReleaseLock, h]
    refine ⟨⟨fun h1 => ?_, fun h1 => (h h1).elim⟩, fun h1 => (h h1).elim, fun _ => ?_⟩
    · rw [hr] at h1
      simp at h1
    · rw [hr]
      exact ⟨rfl, rfl⟩

/-- C12: for every lock store and resource, `DistributedLock.AcquireLock` succeeds exactly
when the key `lock:<resource>` is absent; it then returns the drawn token and stores it
under that key with the given ttl, after the keys already there; when the key is present it
fails and the lock store is the one before the call. Hence a second acquire of the same
resource right after a successful one fails, whatever token and ttl it uses. -/
theorem acquireLock_exclusivo (s : LockStore) (resource : String) (ttl : Nat)
    (lockValue : String) :
    ((∃ v, (DistributedLock.AcquireLock s resource ttl lockValue).2 = .ok v) ↔
      s.get ("lock:" ++ resource) = none) ∧
    (s.get ("lock:" ++ resource) = none →
      DistributedLock.AcquireLock s resource ttl lockValue =
        (s ++ [{ key := "lock:" ++ resource, value := lockValue, ttl := ttl }],
          .ok lockValue) ∧
      (DistributedLock.AcquireLock s resource ttl lockValue).1.get ("lock:" ++ resource) =
        some lockValue ∧
      ∀ (ttl2 : Nat) (lockValue2 : String),
        DistributedLock.AcquireLock (DistributedLock.AcquireLock s resource ttl lockValue).1
            resource ttl2 lockValue2 =
          ((DistributedLock.AcquireLock s resource ttl lockValue).1,
            .error (.Errorf ("lock já adquirido por outro processo: " ++ resource)))) ∧
    (s.get ("lock:" ++ resource) ≠ none →
      DistributedLock.AcquireLock s resource ttl lockValue =
        (s, .error (.Errorf ("lock já adquirido por outro processo: " ++ resource)))) := by
  have hbusy : ∀ (s1 : LockStore) (t v : String) (n : Nat),
      s1.get ("lock:" ++ resource) = some t →
      DistributedLock.AcquireLock s1 resource n v =
        (s1, .error (.Errorf ("lock já adquirido por outro processo: " ++ resource))) := by
    intro s1 t v n h1
    simp [DistributedLock.AcquireLock, LockStore.setNX, h1]
  cases h : s.get ("lock:" ++ resource) with
  | none =>
    have hr : DistributedLock.AcquireLock s resource ttl lockValue =
        (s ++ [{ key := "lock:" ++ resource, value := lockValue, ttl := ttl }],
          .ok lockValue) := by
      simp [DistributedLock.AcquireLock, LockStore.setNX, h]
    have hg := lockStore_get_append_new s ("lock:" ++ resource) lockValue ttl h
    refine ⟨⟨fun _ => rfl, fun _ => ⟨lockValue, by rw [hr]⟩⟩, fun _ => ?_, fun hne => (hne rfl).elim⟩
    rw [hr]
    exact ⟨rfl, hg, fun ttl2 v2 => hbusy _ lockValue v2 ttl2 hg⟩
  | some t =>
    have hr := hbusy s t lockValue ttl h
    refine ⟨⟨fun ⟨v, hv⟩ => ?_, fun h1 => by simp at h1⟩, fun h1 => by simp at h1, fun _ => hr⟩
    rw [hr] at hv
    simp at hv

/-! ## Steps of the per-item lock protocol -/

theorem lockStore_del_append_new (s : LockStore) (key value : String) (ttl : Nat)
    (h : s.get key = none) :
    LockStore.del (s ++ [{ key := key, value := value, ttl := ttl }]) key = s := by
  unfold LockStore.get at h
  have hn : List.find? (fun e => decide (e.key = key)) s = none := by
    cases hf : List.find? (fun e => decide (e.key = key)) s with
    | none => rfl
    | some e => rw [hf] at h; simp at h
  rw [List.find?_eq_none] at hn
  unfold LockStore.del
  rw [List.filter_append]
  have h1 : List.filter (fun e => decide (e.key ≠ key)) s = s := by
    rw [List.filter_eq_self]
    intro a ha
    have := hn a ha
    simpa using this
  rw [h1]
  simp

theorem acquire_livre (w : World) (resource : String) (ttl : Nat) (lockValue : String)
    (h : w.locks.get ("lock:" ++ resource) = none) :
    w.acquire resource ttl lockValue =
      ({ w with
          locks := w.locks ++ [{ key := "lock:" ++ resource, value := lockValue, ttl := ttl }]
          trace := w.trace ++ [.acquire resource true] }, .ok lockValue) := by
  simp [World.acquire, DistributedLock.AcquireLock, LockStore.setNX, h]

theorem acquire_ocupado (w : World) (resource : String) (ttl : Nat) (lockValue : String)
    (h : w.locks.get ("lock:" ++ resource) ≠ none) :
    w.acquire resource ttl lockValue =
      ({ w with trace := w.trace ++ [.acquire resource false] },
        .error (.Errorf ("lock já adquirido por outro processo: " ++ resource))) := by
  cases hg : w.locks.get ("lock:" ++ resource) with
  | none => exact (h hg).elim
  | some t => simp [World.acquire, DistributedLock.AcquireLock, LockStore.setNX, hg]

theorem release_apos_acquire (db : DB) (s : LockStore) (c : Cache) (t : List Evento)
    (resource lockValue : String) (ttl : Nat) (h : s.get ("lock:" ++ resource) = none) :
    World.release
        { db := db
          locks := s ++ [{ key := "lock:" ++ resource, value := lockValue, ttl := ttl }]
          cache := c
          trace := t } resource lockValue =
      { db := db, locks := s, cache := c, trace := t ++ [.release resource true] } := by
  have hg := lockStore_get_append_new s ("lock:" ++ resource) lockValue ttl h
  have hd := lockStore_del_append_new s ("lock:" ++ resource) lockValue ttl h
  simp [World.release, DistributedLock.ReleaseLock, hg, hd]

theorem firstProduto_saveProduto_outro (db : DB) (p1 : Produto) {id : UUID} (h : p1.ID ≠ id) :
    (db.saveProduto p1).firstProduto id = db.firstProduto id := by
  unfold DB.firstProduto DB.saveProduto
  simp only
  induction db.produtos with
  | nil => rfl
  | cons x l ih =>
    by_cases hx : x.ID = p1.ID
    · have h2 : ¬ x.ID = id := fun h3 => h (hx.symm.trans h3)
      rw [List.map_cons, if_pos hx, List.find?_cons_of_neg _ (by simpa using h),
        List.find?_cons_of_neg _ (by simpa using h2)]
      exact ih
    · rw [List.map_cons, if_neg hx]
      by_cases h2 : x.ID = id
      · rw [List.find?_cons_of_pos _ (by simpa using h2),
          List.find?_cons_of_pos _ (by simpa using h2)]
      · rw [List.find?_cons_of_neg _ (by simpa using h2),
          List.find?_cons_of_neg _ (by simpa using h2)]
        exact ih

/-! ## C13: a lock that cannot be acquired -/

theorem reservarItens_cons (notaID : UUID) (rnd : Nat → Sorteio) (item : ItemReserva)
    (itens : List ItemReserva) (i : Nat) (w : World) (acc : List ReservaEstoque) :
    reservarItens notaID rnd (item :: itens) i w acc =
      match w.acquire ("produto:" ++ uuidString item.ProdutoID) (10 * Second)
          (rnd i).lockValue with
      | (w1, .error _) =>
        (EstoqueService.cancelarReservasAnteriores w1 acc,
          .error (.Errorf "produto está sendo processado simultaneamente"))
      | (w1, .ok lockValue) =>
        match produtoRepository.ReservarEstoque w1.db
            (novaReserva notaID item (rnd i).agora) (rnd i).reservaID with
        | (db1, _, some err) =>
          (EstoqueService.cancelarReservasAnteriores
            (World.release
              { w1 with
                db := db1
                trace := w1.trace ++ [.reservar item.ProdutoID item.Quantidade false] }
              ("produto:" ++ uuidString item.ProdutoID) lockValue) acc, .error err)
        | (db1, reserva, none) =>
          reservarItens notaID rnd itens (i + 1)
            (World.release
              { w1 with
                db := db1
                trace := w1.trace ++ [.reservar item.ProdutoID item.Quantidade true] }
              ("produto:" ++ uuidString item.ProdutoID) lockValue) (acc ++ [reserva]) := by
  rw [reservarItens]

theorem reservarItens_append (notaID : UUID) (rnd : Nat → Sorteio) :
    ∀ (pre rest : List ItemReserva) (i : Nat) (w : World) (acc : List ReservaEstoque),
    reservarItens notaID rnd (pre ++ rest) i w acc =
      match reservarItens notaID rnd pre i w acc with
      | (w1, .ok acc1) => reservarItens notaID rnd rest (i + pre.length) w1 acc1
      | (w1, .error e) => (w1, .error e) := by
  intro pre
  induction pre with
  | nil =>
    intro rest i w acc
    simp [reservarItens]
  | cons item pre ih =>
    intro rest i w acc
    rw [List.cons_append, reservarItens_cons, reservarItens_cons]
    rcases w.acquire ("produto:" ++ uuidString item.ProdutoID) (10 * Second)
        (rnd i).lockValue with ⟨w1, r⟩
    cases r with
    | error e => rfl
    | ok v =>
      simp only
      rcases produtoRepository.ReservarEstoque w1.db
          (novaReserva notaID item (rnd i).agora) (rnd i).reservaID with ⟨db1, r1, err⟩
      cases err with
      | some e => rfl
      | none =>
        simp only
        rw [ih]
        have : i + 1 + pre.length = i + (item :: pre).length := by
          simp only [List.length_cons]
          omega
        rw [this]

/-- C13 (as amended): when the items before `item` were reserved (leaving world `w1` and the
rollback list `acc`) and the lock of `item` is held, `EstoqueService.ReservarProdutos` stops
there: it runs the compensation over `acc` and returns the error built by
`fmt.Errorf("produto está sendo processado simultaneamente")`; no later item is processed.
That error is not a sentinel, and `ProdutoHandler.handleError` answers it with 500
`INTERNAL_ERROR` and the generic text. -/
theorem reservarProdutos_lock_ocupado (w : World) (req : ReservarEstoqueRequest)
    (rnd : Nat → Sorteio) (pre post : List ItemReserva) (item : ItemReserva) (w1 : World)
    (acc : List ReservaEstoque)
    (hcache : ∀ r, w.cache.get (.reserva req.NotaFiscalID) ≠ some (.resultJSON r))
    (hitens : req.Itens = pre ++ item :: post)
    (hpre : reservarItens req.NotaFiscalID rnd pre 0 w [] = (w1, .ok acc))
    (hlock : w1.locks.get ("lock:" ++ ("produto:" ++ uuidString item.ProdutoID)) ≠ none) :
    EstoqueService.ReservarProdutos w req rnd =
      (EstoqueService.cancelarReservasAnteriores
          { w1 with trace := w1.trace ++
              [.acquire ("produto:" ++ uuidString item.ProdutoID) false] } acc,
        .error (.Errorf "produto está sendo processado simultaneamente")) ∧
    ProdutoHandler.handleError (.Errorf "produto está sendo processado simultaneamente") =
      ⟨500, "INTERNAL_ERROR", "Erro interno do servidor"⟩ := by
  refine ⟨?_, rfl⟩
  have hloop : reservarItens req.NotaFiscalID rnd req.Itens 0 w [] =
      (EstoqueService.cancelarReservasAnteriores
          { w1 with trace := w1.trace ++
              [.acquire ("produto:" ++ uuidString item.ProdutoID) false] } acc,
        .error (.Errorf "produto está sendo processado simultaneamente")) := by
    rw [hitens, reservarItens_append, hpre]
    simp only
    rw [reservarItens_cons, acquire_ocupado _ _ _ _ hlock]
  have hsem : reservarSemCache w req rnd =
      (EstoqueService.cancelarReservasAnteriores
          { w1 with trace := w1.trace ++
              [.acquire ("produto:" ++ uuidString item.ProdutoID) false] } acc,
        .error (.Errorf "produto está sendo processado simultaneamente")) := by
    unfold reservarSemCache
    rw [hloop]
  unfold EstoqueService.ReservarProdutos
  cases hget : w.cache.get (CacheKey.reserva req.NotaFiscalID) with
  | none => simp only [hsem]
  | some c =>
    cases c with
    | resultJSON r => exact (hcache r hget).elim
    | texto t => simp only [hsem]

theorem reservarProdutos_lock_ocupado_witness :
    EstoqueService.ReservarProdutos exOcupado2 ⟨100, [⟨1, 5⟩, ⟨2, 1⟩]⟩
        (fun i => ⟨"t", 1000 + i, 0⟩) =
      (⟨⟨[⟨1, "A", "a", 10, 5⟩, ⟨2, "B", "b", 1, 0⟩],
          [⟨1000, 1, 100, 5, "PENDENTE", 600000000000⟩]⟩,
        [⟨"lock:produto:2", "x", 10 * Second⟩], [],
        [.acquire "produto:1" true, .reservar 1 5 true, .release "produto:1" true,
         .acquire "produto:2" false, .cancelar 1000 true]⟩,
       .error (.Errorf "produto está sendo processado simultaneamente")) :=
  ((reservarProdutos_lock_ocupado exOcupado2 ⟨100, [⟨1, 5⟩, ⟨2, 1⟩]⟩
    (fun i => ⟨"t", 1000 + i, 0⟩) [⟨1, 5⟩] [] ⟨2, 1⟩
    ⟨⟨[⟨1, "A", "a", 10, 5⟩, ⟨2, "B", "b", 1, 0⟩],
        [⟨1000, 1, 100, 5, "PENDENTE", 600000000000⟩]⟩,
      [⟨"lock:produto:2", "x", 10 * Second⟩], [],
      [.acquire "produto:1" true, .reservar 1 5 true, .release "produto:1" true]⟩
    [⟨1000, 1, 100, 5, "PENDENTE", 600000000000⟩]
    (fun r => by simp [exOcupado2, Cache.get]) (by decide) (by decide) (by decide)).1).trans
    (by decide)

/-- C13 (counterexample): the lock of product `1` is held by another caller; the request for
product `1` is aborted with the `fmt.Errorf` error, and `ProdutoHandler.handleError` answers
that error with 500 `INTERNAL_ERROR`, i.e. it does classify it as Internal. -/
theorem lock_ocupado_responde_500 :
    EstoqueService.ReservarProdutos exOcupado ⟨100, [⟨1, 5⟩]⟩ (fun i => ⟨"t", 1000 + i, 0⟩) =
      (⟨exDB, [⟨"lock:produto:1", "x", 10 * Second⟩], [], [.acquire "produto:1" false]⟩,
        .error (.Errorf "produto está sendo processado simultaneamente")) ∧
    ProdutoHandler.handleError (.Errorf "produto está sendo processado simultaneamente") =
      ⟨500, "INTERNAL_ERROR", "Erro interno do servidor"⟩ ∧
    (Erro.Errorf "produto está sendo processado simultaneamente").ehSentinela = false := by
  decide

/-! ## C14: `ProdutoHandler.handleError` -/

/-- C14: `ProdutoHandler.handleError` answers 404 for the two not-found sentinels, 409 for
insufficient stock, duplicate code, already confirmed and already cancelled, 400 for
invalid quantity and negative balance, 403 for operation not allowed, each with the
sentinel's own text; and every error value that is not a sentinel of `errors.go` gets 500
`INTERNAL_ERROR` with the fixed text `Erro interno do servidor`, whatever its own text. -/
theorem handleError_classes :
    ProdutoHandler.handleError .ErrProdutoNaoEncontrado =
      ⟨404, "NOT_FOUND", "produto não encontrado"⟩ ∧
    ProdutoHandler.handleError .ErrReservaNaoEncontrada =
      ⟨404, "RESERVATION_NOT_FOUND", "reserva não encontrada"⟩ ∧
    ProdutoHandler.handleError .ErrEstoqueInsuficiente =
      ⟨409, "INSUFFICIENT_STOCK", "estoque insuficiente"⟩ ∧
    ProdutoHandler.handleError .ErrCodigoDuplicado =
      ⟨409, "DUPLICATE_CODE", "código já existe"⟩ ∧
    ProdutoHandler.handleError .ErrReservaJaConfirmada =
      ⟨409, "RESERVATION_ALREADY_CONFIRMED", "reserva já confirmada"⟩ ∧
    ProdutoHandler.handleError .ErrReservaJaCancelada =
      ⟨409, "RESERVATION_ALREADY_CANCELLED", "reserva já cancelada"⟩ ∧
    ProdutoHandler.handleError .ErrQuantidadeInvalida =
      ⟨400, "INVALID_QUANTITY", "quantidade deve ser maior que zero"⟩ ∧
    ProdutoHandler.handleError .ErrSaldoNegativo =
      ⟨400, "NEGATIVE_BALANCE", "saldo não pode ser negativo"⟩ ∧
    ProdutoHandler.handleError .ErrOperacaoNaoPermitida =
      ⟨403, "OPERATION_NOT_ALLOWED", "operação não permitida"⟩ ∧
    (∀ err : Erro, err.ehSentinela = false →
      ProdutoHandler.handleError err =
        ⟨500, "INTERNAL_ERROR", "Erro interno do servidor"⟩) ∧
    (∀ err : Erro, (ProdutoHandler.handleError err).status = 500 ↔ err.ehSentinela = false) := by
  refine ⟨rfl, rfl, rfl, rfl, rfl, rfl, rfl, rfl, rfl, ?_, ?_⟩
  · intro err h
    cases err <;> first | rfl | simp [Erro.ehSentinela] at h
  · intro err
    cases err <;> simp [ProdutoHandler.handleError, Erro.ehSentinela]

/-! ## C15: expiry of a reservation at confirm time -/

theorem pendentes_comExpiracao (g : Nat → Nat) (db : DB) (notaID : UUID) :
    (db.comExpiracao g).pendentes notaID =
      (db.pendentes notaID).map (fun r => { r with ExpiresAt := g r.ExpiresAt }) := by
  unfold DB.pendentes DB.comExpiracao
  simp only
  induction db.reservas with
  | nil => rfl
  | cons x l ih =>
    by_cases hx : x.NotaFiscalID = notaID ∧ x.Status = "PENDENTE"
    · rw [List.map_cons, List.filter_cons, if_pos (by simpa using hx), List.filter_cons,
        if_pos (by simpa using hx), List.map_cons, ih]
    · rw [List.map_cons, List.filter_cons, if_neg (by simpa using hx), List.filter_cons,
        if_neg (by simpa using hx), ih]

theorem confirmarLoop_comExpiracao (g : Nat → Nat) : ∀ (rs : List ReservaEstoque) (db : DB),
    confirmarLoop (rs.map (fun r => { r with ExpiresAt := g r.ExpiresAt }))
        (db.comExpiracao g) =
      match confirmarLoop rs db with
      | .ok db1 => .ok (db1.comExpiracao g)
      | .error e => .error e := by
  intro rs
  induction rs with
  | nil => intro db; rfl
  | cons r rs ih =>
    intro db
    rw [List.map_cons]
    unfold confirmarLoop
    have hfirst : (db.comExpiracao g).firstProduto r.ProdutoID = db.firstProduto r.ProdutoID :=
      rfl
    simp only [hfirst]
    cases db.firstProduto r.ProdutoID with
    | none => rfl
    | some p =>
      simp only
      by_cases hneg : wrapInt (p.Saldo - r.Quantidade) < 0
      · simp only [hneg, if_true]
      · simp only [hneg, if_false]
        have hdb : ((db.comExpiracao g).saveProduto
              { p with Saldo := wrapInt (p.Saldo - r.Quantidade),
                       Reservado := wrapInt (p.Reservado - r.Quantidade) }).saveReserva
              { ID := r.ID, ProdutoID := r.ProdutoID, NotaFiscalID := r.NotaFiscalID,
                Quantidade := r.Quantidade, Status := "CONFIRMADO",
                ExpiresAt := g r.ExpiresAt } =
            ((db.saveProduto
              { p with Saldo := wrapInt (p.Saldo - r.Quantidade),
                       Reservado := wrapInt (p.Reservado - r.Quantidade) }).saveReserva
              { r with Status := "CONFIRMADO" }).comExpiracao g := by
          unfold DB.saveReserva DB.saveProduto DB.comExpiracao
          simp only [List.map_map, DB.mk.injEq, true_and]
          apply List.map_congr_left
          intro x _
          by_cases hx : x.ID = r.ID <;> simp [hx]
        rw [hdb]
        exact ih _

/-- C15 (supporting fact): `produtoRepository.ConfirmarReserva` takes no time and never reads
`ExpiresAt`. Rewriting the `ExpiresAt` of every reservation by any function `g` (for instance
to a time long past) changes neither the error returned nor, apart from that column, the
database after the call: a `PENDENTE` row is confirmed, or not, exactly as if it had not
expired. -/
theorem confirmarReserva_independe_expiracao (g : Nat → Nat) (db : DB) (notaID : UUID) :
    produtoRepository.ConfirmarReserva (db.comExpiracao g) notaID =
      ((produtoRepository.ConfirmarReserva db notaID).1.comExpiracao g,
        (produtoRepository.ConfirmarReserva db notaID).2) := by
  unfold produtoRepository.ConfirmarReserva
  rw [pendentes_comExpiracao, confirmarLoop_comExpiracao]
  cases confirmarLoop (db.pendentes notaID) db <;> rfl

/-- C15 (evaluation at the failing input): the `PENDENTE` row of group `100` has
`ExpiresAt = 1`, earlier than the time of any later call. `ConfirmarReserva` confirms it all
the same, in the repository and through the service: the balance goes from 10 to 4, the row
becomes `CONFIRMADO`, and no error (in particular not `ErrReservaExpirada`) is returned. -/
theorem confirmarReserva_expirada :
    produtoRepository.ConfirmarReserva
        ⟨[⟨1, "A", "a", 10, 6⟩], [⟨7, 1, 100, 6, "PENDENTE", 1⟩]⟩ 100 =
      (⟨[⟨1, "A", "a", 4, 0⟩], [⟨7, 1, 100, 6, "CONFIRMADO", 1⟩]⟩, none) ∧
    EstoqueService.ConfirmarReserva
        ⟨⟨[⟨1, "A", "a", 10, 6⟩], [⟨7, 1, 100, 6, "PENDENTE", 1⟩]⟩, [], [], []⟩ 100 =
      (⟨⟨[⟨1, "A", "a", 4, 0⟩], [⟨7, 1, 100, 6, "CONFIRMADO", 1⟩]⟩, [], [],
        [.confirmar 100 true]⟩, none) := by
  decide

/-! ## C16: two concurrent requests for the same item -/

theorem reservarEstoqueTx_eq_apos (db : DB) (reserva : ReservaEstoque) (novoID : UUID) :
    reservarEstoqueTx db reserva novoID =
      reservarEstoqueApos (db.firstProduto reserva.ProdutoID) db reserva novoID := by
  unfold reservarEstoqueTx reservarEstoqueApos
  cases db.firstProduto reserva.ProdutoID <;> rfl

theorem passo_fim (w : World) (t : Pedido) (r : Except Erro ReservaResult)
    (h : t.ponto = .fim r) : passo w t = (w, t) := by
  unfold passo
  rw [h]

theorem passos_fim (n : Nat) (w : World) (t : Pedido) (r : Except Erro ReservaResult)
    (h : t.ponto = .fim r) : passos n w t = (w, t) := by
  induction n with
  | zero => rfl
  | succ n ih =>
    unfold passos
    rw [passo_fim w t r h]
    exact ih

/-- Run alone, the six commands of a request are `EstoqueService.ReservarProdutos` on the
request with that single item. -/
theorem passos_sozinho (w : World) (notaID : UUID) (item : ItemReserva) (s : Sorteio) :
    passos 6 w ⟨notaID, item, s, .inicio⟩ =
      ((EstoqueService.ReservarProdutos w ⟨notaID, [item]⟩ (fun _ => s)).1,
        ⟨notaID, item, s, .fim (EstoqueService.ReservarProdutos w ⟨notaID, [item]⟩
          (fun _ => s)).2⟩) := by
  have hmiss : (∀ r, w.cache.get (.reserva notaID) ≠ some (.resultJSON r)) →
      passos 5 w ⟨notaID, item, s, .adquirir⟩ =
        ((reservarSemCache w ⟨notaID, [item]⟩ (fun _ => s)).1,
          ⟨notaID, item, s, .fim (reservarSemCache w ⟨notaID, [item]⟩ (fun _ => s)).2⟩) := by
    intro _
    unfold reservarSemCache
    simp only [reservarItens_cons]
    cases hl : w.locks.get ("lock:" ++ ("produto:" ++ uuidString item.ProdutoID)) with
    | some v =>
      have hocc := acquire_ocupado w ("produto:" ++ uuidString item.ProdutoID) (10 * Second)
        s.lockValue (by rw [hl]; simp)
      rw [hocc]
      unfold passos passo
      simp only [hocc]
      rw [passos_fim _ _ _ _ rfl]
    | none =>
      have hfree := acquire_livre w ("produto:" ++ uuidString item.ProdutoID) (10 * Second)
        s.lockValue hl
      rw [hfree]
      simp only [produtoRepository.ReservarEstoque, reservarEstoqueTx_eq_apos]
      unfold passos passo
      simp only [hfree]
      unfold passos passo
      simp only
      unfold passos passo
      simp only [novaReserva]
      cases hres : reservarEstoqueApos (w.db.firstProduto item.ProdutoID) w.db
          { ID := 0, ProdutoID := item.ProdutoID, NotaFiscalID := notaID,
            Quantidade := item.Quantidade, Status := "", ExpiresAt := s.agora + 10 * Minute }
          s.reservaID with
      | error e =>
        simp only
        unfold passos passo
        simp only
        rw [passos_fim _ _ _ _ rfl]
      | ok v =>
        obtain ⟨db1, r1⟩ := v
        simp only
        unfold passos passo
        simp only
        unfold passos passo
        simp only
        rw [passos_fim _ _ _ _ rfl]
        simp [reservarItens]
  unfold EstoqueService.ReservarProdutos
  cases hget : w.cache.get (CacheKey.reserva notaID) with
  | none =>
    have := hmiss (by rw [hget]; simp)
    unfold passos passo
    simp only [hget]
    exact this
  | some c =>
    cases c with
    | resultJSON r =>
      unfold passos passo
      simp only [hget]
      rw [passos_fim _ _ _ _ rfl]
    | texto tx =>
      have := hmiss (by rw [hget]; simp)
      unfold passos passo
      simp only [hget]
      exact this

theorem cache_get_eq_none {c : Cache} {k : CacheKey} :
    c.get k = none ↔ ∀ e ∈ c, e.key ≠ k := by
  unfold Cache.get
  constructor
  · intro h e he
    cases hf : List.find? (fun e => decide (e.key = k)) c with
    | some x => rw [hf] at h; simp at h
    | none =>
      rw [List.find?_eq_none] at hf
      simpa using hf e he
  · intro h
    have : List.find? (fun e => decide (e.key = k)) c = none := by
      rw [List.find?_eq_none]
      intro e he
      simpa using h e he
    rw [this]
    rfl

theorem cache_get_set_outro (c : Cache) (n n2 : UUID) (v : Cached) (ttl : Nat) (hne : n ≠ n2)
    (h : c.get (.reserva n2) = none) :
    Cache.get (EstoqueService.invalidateCache (Cache.set c (.reserva n) v ttl))
      (.reserva n2) = none := by
  rw [cache_get_eq_none] at h ⊢
  intro e he
  unfold EstoqueService.invalidateCache Cache.set at he
  have he2 := (List.mem_filter.mp he).1
  rcases List.mem_append.mp he2 with h1 | h1
  · exact h e (List.mem_filter.mp h1).1
  · rw [List.mem_singleton] at h1
    subst h1
    simp only [ne_eq, CacheKey.reserva.injEq]
    exact hne

theorem find_map_mesmo (p1 : Produto) {id : UUID} (h1 : p1.ID = id) :
    ∀ (l : List Produto) (p : Produto),
    List.find? (fun p => decide (p.ID = id)) l = some p →
    List.find? (fun p => decide (p.ID = id))
      (l.map (fun x => if x.ID = p1.ID then p1 else x)) = some p1 := by
  intro l
  induction l with
  | nil =>
    intro p hp
    simp at hp
  | cons x l ih =>
    intro p hp
    by_cases hx : x.ID = id
    · have hx1 : x.ID = p1.ID := hx.trans h1.symm
      rw [List.map_cons, if_pos hx1, List.find?_cons_of_pos _ (by simpa using h1)]
    · have hx1 : ¬ x.ID = p1.ID := fun h => hx (h.trans h1)
      rw [List.find?_cons_of_neg _ (by simpa using hx)] at hp
      rw [List.map_cons, if_neg hx1, List.find?_cons_of_neg _ (by simpa using hx)]
      exact ih p hp

theorem firstProduto_saveProduto_mesmo (db : DB) (p p1 : Produto) {id : UUID}
    (hp : db.firstProduto id = some p) (h1 : p1.ID = id) :
    (db.saveProduto p1).firstProduto id = some p1 :=
  find_map_mesmo p1 h1 db.produtos p hp

theorem invC_troca {pid : UUID} {saldo r0 : Int} {w : World} {a b : Pedido}
    (h : InvC pid saldo r0 w a b) : InvC pid saldo r0 w b a :=
  { pa := h.pb
    pb := h.pa
    excl := h.excl.symm
    linha := by
      obtain ⟨row, h1, h2, h3⟩ := h.linha
      exact ⟨row, h1, h2, by omega⟩
    limites := h.limites
    teto := fun hpos => by
      have := h.teto (by omega)
      omega
    notas := fun e => h.notas e.symm
    ids := fun e => h.ids e.symm }

theorem ganho_nonneg {pid : UUID} {w : World} {t : Pedido} (h : InvPedido pid w t) :
    0 ≤ t.ganho := by
  have := h.qpos
  unfold Pedido.ganho
  split <;> omega

theorem invPedido_mundo {pid : UUID} {w w1 : World} {t : Pedido} (h : InvPedido pid w t)
    (hdb : w1.db = w.db) (hcache : w1.cache = w.cache)
    (hlocks : w1.locks = w.locks ∨ t.token = none) : InvPedido pid w1 t :=
  { prod := h.prod
    qpos := h.qpos
    token := fun v hv => by
      rcases hlocks with h1 | h1
      · rw [h1]
        exact h.token v hv
      · rw [h1] at hv
        simp at hv
    lido := fun v l hl => by
      rw [hdb]
      exact h.lido v l hl
    cache := fun hi => by
      rw [hcache]
      exact h.cache hi
    fresco := fun hg => by
      rw [hdb]
      exact h.fresco hg
    erroL := h.erroL
    erroF := h.erroF }

theorem invC_avanca {pid : UUID} {saldo r0 : Int} {w w1 : World} {a a1 b : Pedido}
    (h : InvC pid saldo r0 w a b) (hgan : a1.ganho = a.ganho) (hdb : w1.db = w.db)
    (hn : a1.notaFiscalID = a.notaFiscalID) (hs : a1.sorteio = a.sorteio)
    (pa1 : InvPedido pid w1 a1) (pb1 : InvPedido pid w1 b)
    (excl : a1.token = none ∨ b.token = none) : InvC pid saldo r0 w1 a1 b :=
  { pa := pa1
    pb := pb1
    excl := excl
    linha := by
      rw [hgan, hdb]
      exact h.linha
    limites := h.limites
    teto := by
      rw [hgan]
      exact h.teto
    notas := by
      rw [hn]
      exact h.notas
    ids := by
      rw [hs]
      exact h.ids }

theorem token_outro {pid : UUID} {saldo r0 : Int} {w : World} {a b : Pedido}
    (h : InvC pid saldo r0 w a b) {v : String} (htk : a.token = some v) : b.token = none := by
  rcases h.excl with h1 | h1
  · rw [htk] at h1
    simp at h1
  · exact h1

theorem passo_inv_inicio {pid : UUID} {saldo r0 : Int} {w : World} {a b : Pedido}
    (h : InvC pid saldo r0 w a b) (hpt : a.ponto = .inicio) :
    InvC pid saldo r0 (passo w a).1 (passo w a).2 b := by
  have hc := h.pa.cache hpt
  have hstep : passo w a = (w, { a with ponto := .adquirir }) := by
    simp [passo, hpt, hc]
  have hg : a.ganho = 0 := by simp [Pedido.ganho, hpt]
  rw [hstep]
  refine invC_avanca h (by rw [hg]; rfl) rfl rfl rfl ?_ h.pb (Or.inl rfl)
  exact
    { prod := h.pa.prod
      qpos := h.pa.qpos
      token := fun v hv => by simp [Pedido.token] at hv
      lido := fun v l hl => by simp at hl
      cache := fun hi => by simp at hi
      fresco := fun _ => h.pa.fresco hg
      erroL := fun v e he => by simp at he
      erroF := fun e he => by simp at he }

theorem passo_inv_fim {pid : UUID} {saldo r0 : Int} {w : World} {a b : Pedido}
    (h : InvC pid saldo r0 w a b) (r : Except Erro ReservaResult) (hpt : a.ponto = .fim r) :
    InvC pid saldo r0 (passo w a).1 (passo w a).2 b := by
  rw [passo_fim w a r hpt]
  exact h

theorem passo_inv_ler {pid : UUID} {saldo r0 : Int} {w : World} {a b : Pedido}
    (h : InvC pid saldo r0 w a b) (v : String) (hpt : a.ponto = .ler v) :
    InvC pid saldo r0 (passo w a).1 (passo w a).2 b := by
  have hstep : passo w a = (w, { a with ponto := .gravar v (w.db.firstProduto pid) }) := by
    simp [passo, hpt, h.pa.prod]
  have hg : a.ganho = 0 := by simp [Pedido.ganho, hpt]
  have htk : a.token = some v := by simp [Pedido.token, hpt]
  rw [hstep]
  refine invC_avanca h (by rw [hg]; rfl) rfl rfl rfl ?_ h.pb (Or.inr (token_outro h htk))
  exact
    { prod := h.pa.prod
      qpos := h.pa.qpos
      token := fun v1 hv => by
        have : v1 = v := by simpa [Pedido.token] using hv.symm
        rw [this]
        exact h.pa.token v htk
      lido := fun v1 l hl => by
        simp only [Ponto.gravar.injEq] at hl
        exact hl.2.symm
      cache := fun hi => by simp at hi
      fresco := fun _ => h.pa.fresco hg
      erroL := fun v e he => by simp at he
      erroF := fun e he => by simp at he }

theorem passo_inv_adquirir {pid : UUID} {saldo r0 : Int} {w : World} {a b : Pedido}
    (h : InvC pid saldo r0 w a b) (hpt : a.ponto = .adquirir) :
    InvC pid saldo r0 (passo w a).1 (passo w a).2 b := by
  have hg : a.ganho = 0 := by simp [Pedido.ganho, hpt]
  cases hl : w.locks.get ("lock:" ++ ("produto:" ++ uuidString pid)) with
  | some v0 =>
    have hocc := acquire_ocupado w ("produto:" ++ uuidString pid) (10 * Second)
      a.sorteio.lockValue (by rw [hl]; simp)
    have hstep : passo w a =
        ({ w with trace := w.trace ++ [.acquire ("produto:" ++ uuidString pid) false] },
          { a with ponto := .fim (.error
              (.Errorf "produto está sendo processado simultaneamente")) }) := by
      simp [passo, hpt, h.pa.prod, hocc, EstoqueService.cancelarReservasAnteriores]
    rw [hstep]
    refine invC_avanca h (by rw [hg]; rfl) rfl rfl rfl ?_
      (invPedido_mundo h.pb rfl rfl (Or.inl rfl)) (Or.inl rfl)
    exact
      { prod := h.pa.prod
        qpos := h.pa.qpos
        token := fun v hv => by simp [Pedido.token] at hv
        lido := fun v l hl => by simp at hl
        cache := fun hi => by simp at hi
        fresco := fun _ => h.pa.fresco hg
        erroL := fun v e he => by simp at he
        erroF := fun e he => by
          simp only [Ponto.fim.injEq, Except.error.injEq] at he
          exact Or.inr he.symm }
  | none =>
    have hfree := acquire_livre w ("produto:" ++ uuidString pid) (10 * Second)
      a.sorteio.lockValue hl
    have hstep : passo w a =
        ({ w with
            locks := w.locks ++ [{ key := "lock:" ++ ("produto:" ++ uuidString pid),
                                   value := a.sorteio.lockValue, ttl := 10 * Second }]
            trace := w.trace ++ [.acquire ("produto:" ++ uuidString pid) true] },
          { a with ponto := .ler a.sorteio.lockValue }) := by
      simp [passo, hpt, h.pa.prod, hfree]
    have hb : b.token = none := by
      cases hbt : b.token with
      | none => rfl
      | some vb =>
        have := h.pb.token vb hbt
        rw [hl] at this
        simp at this
    rw [hstep]
    refine invC_avanca h (by rw [hg]; rfl) rfl rfl rfl ?_
      (invPedido_mundo h.pb rfl rfl (Or.inr hb)) (Or.inr hb)
    exact
      { prod := h.pa.prod
        qpos := h.pa.qpos
        token := fun v hv => by
          have : v = a.sorteio.lockValue := by simpa [Pedido.token] using hv.symm
          rw [this]
          exact lockStore_get_append_new _ _ _ _ hl
        lido := fun v l hl => by simp at hl
        cache := fun hi => by simp at hi
        fresco := fun _ => h.pa.fresco hg
        erroL := fun v e he => by simp at he
        erroF := fun e he => by simp at he }

theorem passo_inv_liberar {pid : UUID} {saldo r0 : Int} {w : World} {a b : Pedido}
    (h : InvC pid saldo r0 w a b) (v : String) (r : Except Erro ReservaEstoque)
    (hpt : a.ponto = .liberar v r) :
    InvC pid saldo r0 (passo w a).1 (passo w a).2 b := by
  have htk : a.token = some v := by simp [Pedido.token, hpt]
  have hget := h.pa.token v htk
  have hb := token_outro h htk
  have hrel : w.release ("produto:" ++ uuidString pid) v =
      { w with
        locks := w.locks.del ("lock:" ++ ("produto:" ++ uuidString pid))
        trace := w.trace ++ [.release ("produto:" ++ uuidString pid) true] } := by
    simp [World.release, DistributedLock.ReleaseLock, hget]
  cases r with
  | error e =>
    have hg : a.ganho = 0 := by simp [Pedido.ganho, hpt]
    have hstep : passo w a =
        ({ w with
            locks := w.locks.del ("lock:" ++ ("produto:" ++ uuidString pid))
            trace := w.trace ++ [.release ("produto:" ++ uuidString pid) true] },
          { a with ponto := .fim (.error e) }) := by
      simp [passo, hpt, h.pa.prod, hrel, EstoqueService.cancelarReservasAnteriores]
    rw [hstep]
    refine invC_avanca h (by rw [hg]; rfl) rfl rfl rfl ?_
      (invPedido_mundo h.pb rfl rfl (Or.inr hb)) (Or.inl rfl)
    exact
      { prod := h.pa.prod
        qpos := h.pa.qpos
        token := fun v hv => by simp [Pedido.token] at hv
        lido := fun v l hl => by simp at hl
        cache := fun hi => by simp at hi
        fresco := fun _ => h.pa.fresco hg
        erroL := fun v e he => by simp at he
        erroF := fun e1 he => by
          simp only [Ponto.fim.injEq, Except.error.injEq] at he
          rw [← he]
          exact h.pa.erroL v e hpt }
  | ok reserva =>
    have hg : a.ganho = a.item.Quantidade := by simp [Pedido.ganho, hpt]
    have hstep : passo w a =
        ({ w with
            locks := w.locks.del ("lock:" ++ ("produto:" ++ uuidString pid))
            trace := w.trace ++ [.release ("produto:" ++ uuidString pid) true] },
          { a with ponto := .guardar reserva }) := by
      simp [passo, hpt, h.pa.prod, hrel]
    rw [hstep]
    refine invC_avanca h (by rw [hg]; rfl) rfl rfl rfl ?_
      (invPedido_mundo h.pb rfl rfl (Or.inr hb)) (Or.inl rfl)
    exact
      { prod := h.pa.prod
        qpos := h.pa.qpos
        token := fun v hv => by simp [Pedido.token] at hv
        lido := fun v l hl => by simp at hl
        cache := fun hi => by simp at hi
        fresco := fun h0 => by
          have hq := h.pa.qpos
          have : a.item.Quantidade = 0 := h0
          omega
        erroL := fun v e he => by simp at he
        erroF := fun e he => by simp at he }

theorem passo_inv_guardar {pid : UUID} {saldo r0 : Int} {w : World} {a b : Pedido}
    (h : InvC pid saldo r0 w a b) (reserva : ReservaEstoque) (hpt : a.ponto = .guardar reserva) :
    InvC pid saldo r0 (passo w a).1 (passo w a).2 b := by
  have hg : a.ganho = a.item.Quantidade := by simp [Pedido.ganho, hpt]
  have hstep : passo w a =
      (World.mk w.db w.locks
          (EstoqueService.invalidateCache
            (w.cache.set (.reserva a.notaFiscalID)
              (.resultJSON
                (ReservaResult.mk a.notaFiscalID [reserva]
                  (toString [reserva].length ++ " produtos reservados com sucesso"))) Hour))
          w.trace,
        Pedido.mk a.notaFiscalID a.item a.sorteio
          (.fim (.ok
            (ReservaResult.mk a.notaFiscalID [reserva]
              (toString [reserva].length ++ " produtos reservados com sucesso"))))) := by
    simp [passo, hpt]
  rw [hstep]
  refine invC_avanca h (by rw [hg]; rfl) rfl rfl rfl ?_ ?_ (Or.inl rfl)
  · exact
      { prod := h.pa.prod
        qpos := h.pa.qpos
        token := fun v hv => by simp [Pedido.token] at hv
        lido := fun v l hl => by simp at hl
        cache := fun hi => by simp at hi
        fresco := fun h0 => by
          have hq := h.pa.qpos
          have : a.item.Quantidade = 0 := h0
          omega
        erroL := fun v e he => by simp at he
        erroF := fun e he => by simp at he }
  · exact
      { prod := h.pb.prod
        qpos := h.pb.qpos
        token := h.pb.token
        lido := h.pb.lido
        cache := fun hi => cache_get_set_outro _ _ _ _ _ h.notas (h.pb.cache hi)
        fresco := h.pb.fresco
        erroL := h.pb.erroL
        erroF := h.pb.erroF }

theorem passo_inv_gravar {pid : UUID} {saldo r0 : Int} {w : World} {a b : Pedido}
    (h : InvC pid saldo r0 w a b) (v : String) (l : Option Produto)
    (hpt : a.ponto = .gravar v l) :
    InvC pid saldo r0 (passo w a).1 (passo w a).2 b := by
  have htk : a.token = some v := by simp [Pedido.token, hpt]
  have hb := token_outro h htk
  have hg : a.ganho = 0 := by simp [Pedido.ganho, hpt]
  have hl := h.pa.lido v l hpt
  obtain ⟨row, hrow, hS, hR⟩ := h.linha
  obtain ⟨hs0, hs1, hr0, hr1⟩ := h.limites
  have hgb := ganho_nonneg h.pb
  have hq := h.pa.qpos
  have hteto := h.teto
  rw [hg] at hR hteto
  have hrid := (firstProduto_some hrow).2
  have hw : wrapInt (row.Saldo - row.Reservado) = row.Saldo - row.Reservado := by
    apply wrapInt_eq
    constructor <;> by_cases hz : 0 < b.ganho <;> have := hteto <;> omega
  by_cases hfit : a.item.Quantidade ≤ row.Saldo - row.Reservado
  · have hpode : row.PodeReservar a.item.Quantidade = true := by
      unfold Produto.PodeReservar
      rw [hw]
      simpa using hfit
    have hw2 : wrapInt (row.Reservado + a.item.Quantidade) =
        row.Reservado + a.item.Quantidade := wrapInt_eq ⟨by omega, by omega⟩
    have hany : ¬ ∃ x ∈ w.db.reservas, x.ID = a.sorteio.reservaID := by
      rintro ⟨x, hx, hxid⟩
      exact h.pa.fresco hg x hx hxid
    have hstep : passo w a =
        (World.mk
          (DB.mk (w.db.saveProduto
              { row with Reservado := row.Reservado + a.item.Quantidade }).produtos
            (w.db.reservas ++
              [ReservaEstoque.mk a.sorteio.reservaID a.item.ProdutoID a.notaFiscalID
                a.item.Quantidade "PENDENTE" (a.sorteio.agora + 10 * Minute)]))
          w.locks w.cache
          (w.trace ++ [.reservar a.item.ProdutoID a.item.Quantidade true]),
        Pedido.mk a.notaFiscalID a.item a.sorteio
          (.liberar v (.ok
            (ReservaEstoque.mk a.sorteio.reservaID a.item.ProdutoID a.notaFiscalID
              a.item.Quantidade "PENDENTE" (a.sorteio.agora + 10 * Minute))))) := by
      simp [passo, hpt, reservarEstoqueApos, hl, hrow, hpode, hw2, novaReserva, criada,
        DB.saveProduto, hany]
    rw [hstep]
    exact
      { pa :=
          { prod := h.pa.prod
            qpos := h.pa.qpos
            token := fun v1 hv => by
              have : v1 = v := by simpa [Pedido.token] using hv.symm
              rw [this]
              exact h.pa.token v htk
            lido := fun v1 l1 hl1 => by simp at hl1
            cache := fun hi => by simp at hi
            fresco := fun h0 => by
              have : a.item.Quantidade = 0 := h0
              omega
            erroL := fun v1 e he => by simp at he
            erroF := fun e he => by simp at he }
        pb :=
          { prod := h.pb.prod
            qpos := h.pb.qpos
            token := fun v1 hv => by
              rw [hb] at hv
              simp at hv
            lido := fun v1 l1 hl1 => by
              have : b.token = some v1 := by simp [Pedido.token, hl1]
              rw [hb] at this
              simp at this
            cache := h.pb.cache
            fresco := fun h0 x hx => by
              rcases List.mem_append.mp hx with h1 | h1
              · exact h.pb.fresco h0 x h1
              · rw [List.mem_singleton] at h1
                subst h1
                exact h.ids
            erroL := h.pb.erroL
            erroF := h.pb.erroF }
        excl := Or.inr hb
        linha := by
          refine ⟨{ row with Reservado := row.Reservado + a.item.Quantidade }, ?_, hS, ?_⟩
          · exact firstProduto_saveProduto_mesmo w.db row _ hrow hrid
          · show row.Reservado + a.item.Quantidade = r0 + a.item.Quantidade + b.ganho
            omega
        limites := h.limites
        teto := fun _ => by
          show r0 + a.item.Quantidade + b.ganho ≤ saldo
          omega
        notas := h.notas
        ids := h.ids }
  · have hpode : row.PodeReservar a.item.Quantidade = false := by
      unfold Produto.PodeReservar
      rw [hw]
      simpa using hfit
    have hstep : passo w a =
        ({ w with trace := w.trace ++ [.reservar a.item.ProdutoID a.item.Quantidade false] },
          { a with ponto := .liberar v (.error .ErrEstoqueInsuficiente) }) := by
      simp [passo, hpt, reservarEstoqueApos, hl, hrow, hpode, novaReserva]
    rw [hstep]
    refine invC_avanca h (by rw [hg]; rfl) rfl rfl rfl ?_
      (invPedido_mundo h.pb rfl rfl (Or.inl rfl)) (Or.inr hb)
    exact
      { prod := h.pa.prod
        qpos := h.pa.qpos
        token := fun v1 hv => by
          have : v1 = v := by simpa [Pedido.token] using hv.symm
          rw [this]
          exact h.pa.token v htk
        lido := fun v1 l1 hl1 => by simp at hl1
        cache := fun hi => by simp at hi
        fresco := fun _ => h.pa.fresco hg
        erroL := fun v1 e he => by
          simp only [Ponto.liberar.injEq, Except.error.injEq] at he
          exact Or.inl he.2.symm
        erroF := fun e he => by simp at he }

theorem passo_inv {pid : UUID} {saldo r0 : Int} {w : World} {a b : Pedido}
    (h : InvC pid saldo r0 w a b) : InvC pid saldo r0 (passo w a).1 (passo w a).2 b := by
  cases hpt : a.ponto with
  | inicio => exact passo_inv_inicio h hpt
  | adquirir => exact passo_inv_adquirir h hpt
  | ler v => exact passo_inv_ler h v hpt
  | gravar v l => exact passo_inv_gravar h v l hpt
  | liberar v r => exact passo_inv_liberar h v r hpt
  | guardar reserva => exact passo_inv_guardar h reserva hpt
  | fim r => exact passo_inv_fim h r hpt

theorem intercalar_inv {pid : UUID} {saldo r0 : Int} : ∀ (ordem : List Bool) (c : Config),
    InvC pid saldo r0 c.w c.a c.b →
    InvC pid saldo r0 (intercalar c ordem).w (intercalar c ordem).a (intercalar c ordem).b := by
  intro ordem
  induction ordem with
  | nil => intro c h; exact h
  | cons x ordem ih =>
    intro c h
    show InvC pid saldo r0 (intercalar (c.passo x) ordem).w (intercalar (c.passo x) ordem).a
      (intercalar (c.passo x) ordem).b
    apply ih
    cases x with
    | false => exact passo_inv h
    | true => exact invC_troca (passo_inv (invC_troca h))

theorem falta_passo (w : World) (t : Pedido) :
    (passo w t).2.ponto.falta ≤ t.ponto.falta - 1 := by
  unfold passo
  cases hpt : t.ponto with
  | inicio =>
    simp only
    split <;> simp [Ponto.falta]
  | adquirir =>
    simp only
    split <;> simp [Ponto.falta]
  | ler v => simp [Ponto.falta]
  | gravar v l =>
    simp only
    split <;> simp [Ponto.falta]
  | liberar v r =>
    cases r <;> simp [Ponto.falta]
  | guardar reserva => simp [Ponto.falta]
  | fim r => simp [Ponto.falta, hpt]

theorem falta_intercalar : ∀ (ordem : List Bool) (c : Config),
    (intercalar c ordem).a.ponto.falta ≤ c.a.ponto.falta - ordem.count false ∧
    (intercalar c ordem).b.ponto.falta ≤ c.b.ponto.falta - ordem.count true := by
  intro ordem
  induction ordem with
  | nil => intro c; simp [intercalar]
  | cons x ordem ih =>
    intro c
    obtain ⟨h1, h2⟩ := ih (c.passo x)
    have hstep : intercalar c (x :: ordem) = intercalar (c.passo x) ordem := rfl
    rw [hstep]
    cases x with
    | false =>
      have ha : (c.passo false).a.ponto.falta ≤ c.a.ponto.falta - 1 := falta_passo c.w c.a
      have hb : (c.passo false).b = c.b := rfl
      rw [hb] at h2
      have c1 : (false :: ordem).count false = ordem.count false + 1 := by simp
      have c2 : (false :: ordem).count true = ordem.count true := by simp
      constructor <;> omega
    | true =>
      have hb : (c.passo true).b.ponto.falta ≤ c.b.ponto.falta - 1 := falta_passo c.w c.b
      have ha : (c.passo true).a = c.a := rfl
      rw [ha] at h1
      have c1 : (true :: ordem).count true = ordem.count true + 1 := by simp
      have c2 : (true :: ordem).count false = ordem.count false := by simp
      constructor <;> omega

theorem passo_item (w : World) (t : Pedido) : (passo w t).2.item = t.item := by
  unfold passo
  cases t.ponto with
  | inicio =>
    simp only
    split <;> rfl
  | adquirir =>
    simp only
    split <;> rfl
  | ler v => rfl
  | gravar v l =>
    simp only
    split <;> rfl
  | liberar v r => cases r <;> rfl
  | guardar reserva => rfl
  | fim r => rfl

theorem intercalar_item : ∀ (ordem : List Bool) (c : Config),
    (intercalar c ordem).a.item = c.a.item ∧ (intercalar c ordem).b.item = c.b.item := by
  intro ordem
  induction ordem with
  | nil => intro c; exact ⟨rfl, rfl⟩
  | cons x ordem ih =>
    intro c
    obtain ⟨h1, h2⟩ := ih (c.passo x)
    have hstep : intercalar c (x :: ordem) = intercalar (c.passo x) ordem := rfl
    rw [hstep, h1, h2]
    cases x with
    | false => exact ⟨passo_item c.w c.a, rfl⟩
    | true => exact ⟨rfl, passo_item c.w c.b⟩

theorem falta_zero (pt : Ponto) (h : pt.falta = 0) : ∃ r, pt = .fim r := by
  cases pt <;> simp [Ponto.falta] at h
  exact ⟨_, rfl⟩

theorem invC_inicial (w : World) (pid n1 n2 : UUID) (q1 q2 : Int) (s1 s2 : Sorteio)
    (p : Produto) (hp : w.db.firstProduto pid = some p) (hv : p.valido) (hq1 : 0 < q1)
    (hq2 : 0 < q2) (hn : n1 ≠ n2) (hc1 : w.cache.get (.reserva n1) = none)
    (hc2 : w.cache.get (.reserva n2) = none) (hid : s1.reservaID ≠ s2.reservaID)
    (hf : ∀ x ∈ w.db.reservas, x.ID ≠ s1.reservaID ∧ x.ID ≠ s2.reservaID) :
    InvC pid p.Saldo p.Reservado (doisPedidos w pid n1 n2 q1 q2 s1 s2).w
      (doisPedidos w pid n1 n2 q1 q2 s1 s2).a (doisPedidos w pid n1 n2 q1 q2 s1 s2).b :=
  { pa :=
      { prod := rfl
        qpos := hq1
        token := fun v hv => by simp [doisPedidos, Pedido.token] at hv
        lido := fun v l hl => by simp [doisPedidos] at hl
        cache := fun _ => hc1
        fresco := fun _ x hx => (hf x hx).1
        erroL := fun v e he => by simp [doisPedidos] at he
        erroF := fun e he => by simp [doisPedidos] at he }
    pb :=
      { prod := rfl
        qpos := hq2
        token := fun v hv => by simp [doisPedidos, Pedido.token] at hv
        lido := fun v l hl => by simp [doisPedidos] at hl
        cache := fun _ => hc2
        fresco := fun _ x hx => (hf x hx).2
        erroL := fun v e he => by simp [doisPedidos] at he
        erroF := fun e he => by simp [doisPedidos] at he }
    excl := Or.inl rfl
    linha := ⟨p, hp, rfl, by simp [doisPedidos, Pedido.ganho]⟩
    limites := ⟨hv.1, hv.2.1, hv.2.2.1, hv.2.2.2⟩
    teto := fun h => by simp [doisPedidos, Pedido.ganho] at h
    notas := hn
    ids := hid }

/-- C16 (as amended): two single-item reservation requests with different grouping ids for
the same existing, well-formed item, with positive quantities whose sum exceeds
`balance - reserved`, no stored result and unused generated ids, are run command by command
in any order `ordem` that gives each of them its six commands (no expiry, no other actor).
Both return; they never both succeed; a request that fails does so with
`ErrEstoqueInsuficiente` or with the lock error `produto está sendo processado
simultaneamente`; and the item ends with its balance unchanged and `Reservado` raised by
exactly the quantities of the requests that succeeded. -/
theorem sem_venda_dupla (w : World) (pid n1 n2 : UUID) (q1 q2 : Int) (s1 s2 : Sorteio)
    (p : Produto) (ordem : List Bool)
    (hp : w.db.firstProduto pid = some p) (hv : p.valido) (hq1 : 0 < q1) (hq2 : 0 < q2)
    (hsum : p.Saldo - p.Reservado < q1 + q2) (hn : n1 ≠ n2)
    (hc1 : w.cache.get (.reserva n1) = none) (hc2 : w.cache.get (.reserva n2) = none)
    (hid : s1.reservaID ≠ s2.reservaID)
    (hf : ∀ x ∈ w.db.reservas, x.ID ≠ s1.reservaID ∧ x.ID ≠ s2.reservaID)
    (ha : 6 ≤ ordem.count false) (hb : 6 ≤ ordem.count true) :
    ∃ r1 r2,
      (intercalar (doisPedidos w pid n1 n2 q1 q2 s1 s2) ordem).a.ponto = .fim r1 ∧
      (intercalar (doisPedidos w pid n1 n2 q1 q2 s1 s2) ordem).b.ponto = .fim r2 ∧
      ¬ ((∃ x, r1 = .ok x) ∧ (∃ y, r2 = .ok y)) ∧
      (∀ e, r1 = .error e → erroEsperado e) ∧
      (∀ e, r2 = .error e → erroEsperado e) ∧
      ∃ row,
        (intercalar (doisPedidos w pid n1 n2 q1 q2 s1 s2) ordem).w.db.firstProduto pid =
          some row ∧
        row.Saldo = p.Saldo ∧
        row.Reservado = p.Reservado + efetivado r1 q1 + efetivado r2 q2 := by
  have hinv := intercalar_inv ordem _
    (invC_inicial w pid n1 n2 q1 q2 s1 s2 p hp hv hq1 hq2 hn hc1 hc2 hid hf)
  obtain ⟨hfa, hfb⟩ := falta_intercalar ordem (doisPedidos w pid n1 n2 q1 q2 s1 s2)
  have hfa0 : (doisPedidos w pid n1 n2 q1 q2 s1 s2).a.ponto.falta = 6 := rfl
  have hfb0 : (doisPedidos w pid n1 n2 q1 q2 s1 s2).b.ponto.falta = 6 := rfl
  obtain ⟨r1, h1⟩ := falta_zero (intercalar (doisPedidos w pid n1 n2 q1 q2 s1 s2)
    ordem).a.ponto (by omega)
  obtain ⟨r2, h2⟩ := falta_zero (intercalar (doisPedidos w pid n1 n2 q1 q2 s1 s2)
    ordem).b.ponto (by omega)
  obtain ⟨hia, hib⟩ := intercalar_item ordem (doisPedidos w pid n1 n2 q1 q2 s1 s2)
  have hga : (intercalar (doisPedidos w pid n1 n2 q1 q2 s1 s2) ordem).a.ganho =
      efetivado r1 q1 := by
    unfold Pedido.ganho efetivado
    rw [h1, hia]
    cases r1 <;> rfl
  have hgb : (intercalar (doisPedidos w pid n1 n2 q1 q2 s1 s2) ordem).b.ganho =
      efetivado r2 q2 := by
    unfold Pedido.ganho efetivado
    rw [h2, hib]
    cases r2 <;> rfl
  obtain ⟨row, hr1, hr2, hr3⟩ := hinv.linha
  have hteto := hinv.teto
  rw [hga, hgb] at hr3 hteto
  refine ⟨r1, r2, h1, h2, ?_, fun e he => hinv.pa.erroF e (by rw [h1, he]),
    fun e he => hinv.pb.erroF e (by rw [h2, he]), row, hr1, hr2, hr3⟩
  rintro ⟨⟨x, rfl⟩, ⟨y, rfl⟩⟩
  simp only [efetivado] at hteto
  have := hteto (by omega)
  omega

theorem sem_venda_dupla_witness :
    ∃ r1 r2,
      (intercalar exDisputa exOrdem).a.ponto = .fim r1 ∧
      (intercalar exDisputa exOrdem).b.ponto = .fim r2 ∧
      ¬ ((∃ x, r1 = .ok x) ∧ (∃ y, r2 = .ok y)) ∧
      (∀ e, r1 = .error e → erroEsperado e) ∧
      (∀ e, r2 = .error e → erroEsperado e) ∧
      ∃ row,
        (intercalar exDisputa exOrdem).w.db.firstProduto 1 = some row ∧
        row.Saldo = 10 ∧
        row.Reservado = 0 + efetivado r1 6 + efetivado r2 6 :=
  sem_venda_dupla ⟨exDB, [], [], []⟩ 1 100 200 6 6 ⟨"t", 1000, 0⟩ ⟨"u", 2000, 0⟩
    ⟨1, "A", "a", 10, 0⟩ exOrdem (by decide) (by decide) (by decide) (by decide) (by decide)
    (by decide) (by decide) (by decide) (by decide) (by decide) (by decide) (by decide)

/-- C16 (counterexample): item `1` has 10 available. With two requests of 6 each, run so that
the second tries the lock while the first holds it, the first succeeds and the second fails
with the lock error, not with `ErrEstoqueInsuficiente`. With two requests of 11 each, run one
after the other, both fail: none succeeds. -/
theorem disputa_sem_estoque_insuficiente :
    (intercalar exDisputa exOrdem).a.ponto =
      .fim (.ok ⟨100, [⟨1000, 1, 100, 6, "PENDENTE", 600000000000⟩],
        "1 produtos reservados com sucesso"⟩) ∧
    (intercalar exDisputa exOrdem).b.ponto =
      .fim (.error (.Errorf "produto está sendo processado simultaneamente")) ∧
    (intercalar (doisPedidos ⟨exDB, [], [], []⟩ 1 100 200 11 11 ⟨"t", 1000, 0⟩ ⟨"u", 2000, 0⟩)
      exEmSerie).a.ponto = .fim (.error .ErrEstoqueInsuficiente) ∧
    (intercalar (doisPedidos ⟨exDB, [], [], []⟩ 1 100 200 11 11 ⟨"t", 1000, 0⟩ ⟨"u", 2000, 0⟩)
      exEmSerie).b.ponto = .fim (.error .ErrEstoqueInsuficiente) := by
  decide

/-! ## C17: per-item lock discipline -/

theorem cancelarReservasAnteriores_efeito : ∀ (acc : List ReservaEstoque) (w : World),
    (EstoqueService.cancelarReservasAnteriores w acc).locks = w.locks ∧
    (EstoqueService.cancelarReservasAnteriores w acc).cache = w.cache ∧
    ∃ cs, (EstoqueService.cancelarReservasAnteriores w acc).trace = w.trace ++ cs ∧
      soCancelar cs := by
  intro acc
  induction acc with
  | nil =>
    intro w
    exact ⟨rfl, rfl, [], by simp [EstoqueService.cancelarReservasAnteriores], by simp [soCancelar]⟩
  | cons r acc ih =>
    intro w
    unfold EstoqueService.cancelarReservasAnteriores
    obtain ⟨h1, h2, cs, h3, h4⟩ := ih
      { w with db := (produtoRepository.CancelarReserva w.db r.ID).1,
               trace := w.trace ++
                [.cancelar r.ID (produtoRepository.CancelarReserva w.db r.ID).2.isNone] }
    refine ⟨h1, h2, .cancelar r.ID (produtoRepository.CancelarReserva w.db r.ID).2.isNone :: cs,
      ?_, ?_⟩
    · rw [h3]
      simp
    · intro e he
      rcases List.mem_cons.mp he with rfl | h
      · exact ⟨_, _, rfl⟩
      · exact h4 e h

theorem reservarItens_disciplina (notaID : UUID) (rnd : Nat → Sorteio) :
    ∀ (itens : List ItemReserva) (i : Nat) (w : World) (acc : List ReservaEstoque),
    (reservarItens notaID rnd itens i w acc).1.locks = w.locks ∧
    (reservarItens notaID rnd itens i w acc).1.cache = w.cache ∧
    ∃ t, (reservarItens notaID rnd itens i w acc).1.trace = w.trace ++ t ∧
      Disciplina itens t := by
  intro itens
  induction itens with
  | nil =>
    intro i w acc
    exact ⟨rfl, rfl, [], by simp [reservarItens], Disciplina.fim⟩
  | cons item itens ih =>
    intro i w acc
    rw [reservarItens_cons]
    cases hl : w.locks.get ("lock:" ++ ("produto:" ++ uuidString item.ProdutoID)) with
    | some v =>
      rw [acquire_ocupado _ _ _ _ (by rw [hl]; simp)]
      simp only
      obtain ⟨h1, h2, cs, h3, h4⟩ := cancelarReservasAnteriores_efeito acc
        { w with trace := w.trace ++
            [.acquire ("produto:" ++ uuidString item.ProdutoID) false] }
      refine ⟨h1, h2, .acquire ("produto:" ++ uuidString item.ProdutoID) false :: cs, ?_,
        Disciplina.falhaLock item itens cs h4⟩
      rw [h3]
      simp
    | none =>
      rw [acquire_livre _ _ _ _ hl]
      simp only
      rcases produtoRepository.ReservarEstoque w.db
          (novaReserva notaID item (rnd i).agora) (rnd i).reservaID with ⟨db1, r1, err⟩
      cases err with
      | some e =>
        simp only
        rw [release_apos_acquire _ _ _ _ _ _ _ hl]
        obtain ⟨h1, h2, cs, h3, h4⟩ := cancelarReservasAnteriores_efeito acc
          { db := db1, locks := w.locks, cache := w.cache,
            trace := w.trace ++ [.acquire ("produto:" ++ uuidString item.ProdutoID) true] ++
              [.reservar item.ProdutoID item.Quantidade false] ++
              [.release ("produto:" ++ uuidString item.ProdutoID) true] }
        refine ⟨h1, h2, _, ?_, Disciplina.falhaReserva item itens cs h4⟩
        rw [h3]
        simp
      | none =>
        simp only
        rw [release_apos_acquire _ _ _ _ _ _ _ hl]
        obtain ⟨h1, h2, t, h3, h4⟩ := ih (i + 1)
          { db := db1, locks := w.locks, cache := w.cache,
            trace := w.trace ++ [.acquire ("produto:" ++ uuidString item.ProdutoID) true] ++
              [.reservar item.ProdutoID item.Quantidade true] ++
              [.release ("produto:" ++ uuidString item.ProdutoID) true] } (acc ++ [r1])
        refine ⟨h1, h2, _, ?_, Disciplina.feito item itens t h4⟩
        rw [h3]
        simp

theorem posse_soCancelar : ∀ (cs : List Evento) (held : List String), soCancelar cs →
    posse held cs = held := by
  intro cs
  induction cs with
  | nil => intro held _; rfl
  | cons e cs ih =>
    intro held h
    obtain ⟨id, ok, rfl⟩ := h e (List.mem_cons_self _ _)
    unfold posse
    exact ih held (fun x hx => h x (List.mem_cons_of_mem _ hx))

theorem soCancelar_take {cs : List Evento} (h : soCancelar cs) (n : Nat) :
    soCancelar (cs.take n) :=
  fun e he => h e (List.mem_of_mem_take he)

theorem posse_bloco (k : String) (e : Evento)
    (he : (∃ pid q ok, e = Evento.reservar pid q ok)) (t : List Evento) :
    posse [] (.acquire k true :: e :: .release k true :: t) = posse [] t ∧
    ∀ n, (posse [] ((Evento.acquire k true :: e :: .release k true :: t).take n)).length ≤ 1 ∨
      ∃ m, posse [] ((Evento.acquire k true :: e :: .release k true :: t).take n) =
        posse [] (t.take m) := by
  obtain ⟨pid, q, ok, rfl⟩ := he
  refine ⟨by simp [posse], ?_⟩
  intro n
  match n with
  | 0 => left; simp [posse]
  | 1 => left; simp [posse]
  | 2 => left; simp [posse]
  | m + 3 => right; exact ⟨m, by simp [posse]⟩

theorem disciplina_posse : ∀ (itens : List ItemReserva) (t : List Evento),
    Disciplina itens t →
    posse [] t = [] ∧ ∀ n, (posse [] (t.take n)).length ≤ 1 := by
  intro itens t h
  induction h with
  | fim => exact ⟨rfl, fun n => by simp [posse]⟩
  | feito item itens t _ ih =>
    obtain ⟨h1, h2⟩ := posse_bloco ("produto:" ++ uuidString item.ProdutoID)
      (.reservar item.ProdutoID item.Quantidade true) ⟨_, _, _, rfl⟩ t
    refine ⟨h1.trans ih.1, fun n => ?_⟩
    rcases h2 n with h | ⟨m, h⟩
    · exact h
    · rw [h]
      exact ih.2 m
  | falhaReserva item itens cs hcs =>
    obtain ⟨h1, h2⟩ := posse_bloco ("produto:" ++ uuidString item.ProdutoID)
      (.reservar item.ProdutoID item.Quantidade false) ⟨_, _, _, rfl⟩ cs
    refine ⟨h1.trans (posse_soCancelar cs [] hcs), fun n => ?_⟩
    rcases h2 n with h | ⟨m, h⟩
    · exact h
    · rw [h, posse_soCancelar _ [] (soCancelar_take hcs m)]
      simp
  | falhaLock item itens cs hcs =>
    refine ⟨?_, fun n => ?_⟩
    · show posse [] cs = []
      exact posse_soCancelar cs [] hcs
    · match n with
      | 0 => simp [posse]
      | m + 1 =>
        show (posse [] (cs.take m)).length ≤ 1
        rw [posse_soCancelar _ [] (soCancelar_take hcs m)]
        simp

/-- C17: for every world, request and drawn values, with no other actor and no expiry,
`EstoqueService.ReservarProdutos` leaves the lock store exactly as it found it (no lock it
acquired is still held, on any return path), and the calls it adds to the record are either
none (a stored result was returned) or follow `Disciplina`: items are taken in input order,
each item's lock is released right after that item's ledger call, whether it succeeded or
failed, and before the next lock is taken. At every point of those calls at most one lock is
held, and none at the end. -/
theorem reservarProdutos_disciplina (w : World) (req : ReservarEstoqueRequest)
    (rnd : Nat → Sorteio) :
    (EstoqueService.ReservarProdutos w req rnd).1.locks = w.locks ∧
    ∃ t, (EstoqueService.ReservarProdutos w req rnd).1.trace = w.trace ++ t ∧
      ((∃ r, w.cache.get (.reserva req.NotaFiscalID) = some (.resultJSON r)) ∧ t = [] ∨
        (¬ (∃ r, w.cache.get (.reserva req.NotaFiscalID) = some (.resultJSON r)) ∧
          Disciplina req.Itens t)) ∧
      (∀ n, (posse [] (t.take n)).length ≤ 1) ∧ posse [] t = [] := by
  have hsem : (reservarSemCache w req rnd).1.locks = w.locks ∧
      ∃ t, (reservarSemCache w req rnd).1.trace = w.trace ++ t ∧ Disciplina req.Itens t := by
    obtain ⟨h1, _, t, h3, h4⟩ := reservarItens_disciplina req.NotaFiscalID rnd req.Itens 0 w []
    unfold reservarSemCache
    rcases hloop : reservarItens req.NotaFiscalID rnd req.Itens 0 w [] with ⟨w1, r⟩
    rw [hloop] at h1 h3
    cases r with
    | error e => exact ⟨h1, t, h3, h4⟩
    | ok reservas => exact ⟨h1, t, h3, h4⟩
  have hmiss : ∀ c, w.cache.get (.reserva req.NotaFiscalID) = c →
      (¬ ∃ r, c = some (Cached.resultJSON r)) →
      EstoqueService.ReservarProdutos w req rnd = reservarSemCache w req rnd := by
    intro c hc hno
    unfold EstoqueService.ReservarProdutos
    rw [hc]
    cases c with
    | none => rfl
    | some v =>
      cases v with
      | resultJSON r => exact (hno ⟨r, rfl⟩).elim
      | texto s => rfl
  by_cases hhit : ∃ r, w.cache.get (.reserva req.NotaFiscalID) = some (.resultJSON r)
  · obtain ⟨r, hr⟩ := hhit
    have : EstoqueService.ReservarProdutos w req rnd = (w, .ok r) := by
      simp [EstoqueService.ReservarProdutos, hr]
    rw [this]
    exact ⟨rfl, [], by simp, Or.inl ⟨⟨r, hr⟩, rfl⟩, fun n => by simp [posse], rfl⟩
  · rw [hmiss _ rfl hhit]
    obtain ⟨h1, t, h2, h3⟩ := hsem
    obtain ⟨h4, h5⟩ := disciplina_posse _ _ h3
    exact ⟨h1, t, h2, Or.inr ⟨hhit, h3⟩, h5, h4⟩

/-! ## C18: a multi-item direct deduction is not all-or-nothing -/

/-- C18: for a deduction request `[a, b]` on two different existing items whose locks are
free, with `0 ≤ qA ≤ balance of a` (a well-formed row) and `balance of b < qB`, the service
operation `EstoqueService.BaixarEstoque` returns `ErrEstoqueInsuficiente`; in the world it
leaves, the rows of `a` have `Saldo` lowered by `qA`, every other product row (that of `b`
included) and the reservation table are as before, both locks are released, the cache is
untouched, and the record of calls shows the two lock/deduct/unlock rounds and nothing else:
no compensation is run. -/
theorem baixarEstoque_parcial (w : World) (a b : ItemReserva) (rnd : Nat → Sorteio)
    (pa pb : Produto)
    (hla : w.locks.get ("lock:" ++ ("produto:" ++ uuidString a.ProdutoID)) = none)
    (hlb : w.locks.get ("lock:" ++ ("produto:" ++ uuidString b.ProdutoID)) = none)
    (hpa : w.db.firstProduto a.ProdutoID = some pa)
    (hpb : w.db.firstProduto b.ProdutoID = some pb)
    (hab : a.ProdutoID ≠ b.ProdutoID) (hva : pa.valido) (hqa : 0 ≤ a.Quantidade)
    (ha : a.Quantidade ≤ pa.Saldo) (hb : pb.Saldo < b.Quantidade) :
    EstoqueService.BaixarEstoque w [a, b] rnd =
      ({ db :=
            { produtos := w.db.produtos.map (fun x =>
                if x.ID = a.ProdutoID then { pa with Saldo := pa.Saldo - a.Quantidade }
                else x)
              reservas := w.db.reservas }
         locks := w.locks
         cache := w.cache
         trace := w.trace ++
            [.acquire ("produto:" ++ uuidString a.ProdutoID) true,
             .baixar a.ProdutoID a.Quantidade true,
             .release ("produto:" ++ uuidString a.ProdutoID) true,
             .acquire ("produto:" ++ uuidString b.ProdutoID) true,
             .baixar b.ProdutoID b.Quantidade false,
             .release ("produto:" ++ uuidString b.ProdutoID) true] },
       some .ErrEstoqueInsuficiente) ∧
    (EstoqueService.BaixarEstoque w [a, b] rnd).1.db.firstProduto b.ProdutoID = some pb := by
  obtain ⟨h1, h2, h3, h4⟩ := hva
  have hida := (firstProduto_some hpa).2
  have hw : wrapInt (pa.Saldo - a.Quantidade) = pa.Saldo - a.Quantidade :=
    wrapInt_eq ⟨by omega, by omega⟩
  have hba : produtoRepository.BaixarEstoque w.db a.ProdutoID a.Quantidade =
      (w.db.saveProduto { pa with Saldo := pa.Saldo - a.Quantidade }, none) := by
    have : ¬ pa.Saldo < a.Quantidade := by omega
    simp [produtoRepository.BaixarEstoque, hpa, this, hw]
  have hpb2 : (w.db.saveProduto { pa with Saldo := pa.Saldo - a.Quantidade }).firstProduto
      b.ProdutoID = some pb := by
    rw [firstProduto_saveProduto_outro]
    · exact hpb
    · show pa.ID ≠ b.ProdutoID
      rw [hida]
      exact hab
  have hbb : produtoRepository.BaixarEstoque
      (w.db.saveProduto { pa with Saldo := pa.Saldo - a.Quantidade }) b.ProdutoID
        b.Quantidade =
      (w.db.saveProduto { pa with Saldo := pa.Saldo - a.Quantidade },
        some .ErrEstoqueInsuficiente) := by
    simp [produtoRepository.BaixarEstoque, hpb2, hb]
  have hres : EstoqueService.BaixarEstoque w [a, b] rnd =
      ({ db := w.db.saveProduto { pa with Saldo := pa.Saldo - a.Quantidade }
         locks := w.locks
         cache := w.cache
         trace := w.trace ++
            [.acquire ("produto:" ++ uuidString a.ProdutoID) true,
             .baixar a.ProdutoID a.Quantidade true,
             .release ("produto:" ++ uuidString a.ProdutoID) true,
             .acquire ("produto:" ++ uuidString b.ProdutoID) true,
             .baixar b.ProdutoID b.Quantidade false,
             .release ("produto:" ++ uuidString b.ProdutoID) true] },
       some .ErrEstoqueInsuficiente) := by
    unfold EstoqueService.BaixarEstoque baixarItens
    simp only [acquire_livre w _ _ _ hla, hba]
    rw [release_apos_acquire _ _ _ _ _ _ _ hla]
    unfold baixarItens
    have hlb2 : (World.mk (w.db.saveProduto { pa with Saldo := pa.Saldo - a.Quantidade })
        w.locks w.cache
        (w.trace ++ [.acquire ("produto:" ++ uuidString a.ProdutoID) true] ++
          [.baixar a.ProdutoID a.Quantidade true] ++
          [.release ("produto:" ++ uuidString a.ProdutoID) true])).locks.get
        ("lock:" ++ ("produto:" ++ uuidString b.ProdutoID)) = none := hlb
    simp only [acquire_livre _ _ _ _ hlb2, hbb]
    rw [release_apos_acquire _ _ _ _ _ _ _ hlb]
    simp
  refine ⟨?_, ?_⟩
  · rw [hres]
    simp [DB.saveProduto, hida]
  · rw [hres]
    exact hpb2

theorem baixarEstoque_parcial_witness :
    EstoqueService.BaixarEstoque ⟨exDB, [], [], []⟩ [⟨1, 4⟩, ⟨2, 5⟩]
        (fun i => ⟨"t", 1000 + i, 0⟩) =
      (⟨⟨[⟨1, "A", "a", 6, 0⟩, ⟨2, "B", "b", 1, 0⟩], []⟩, [], [],
        [.acquire "produto:1" true, .baixar 1 4 true, .release "produto:1" true,
         .acquire "produto:2" true, .baixar 2 5 false, .release "produto:2" true]⟩,
       some .ErrEstoqueInsuficiente) :=
  ((baixarEstoque_parcial ⟨exDB, [], [], []⟩ ⟨1, 4⟩ ⟨2, 5⟩ (fun i => ⟨"t", 1000 + i, 0⟩)
    ⟨1, "A", "a", 10, 0⟩ ⟨2, "B", "b", 1, 0⟩ (by decide) (by decide) (by decide) (by decide)
    (by decide) (by decide) (by decide) (by decide) (by decide)).1).trans (by decide)

end Estoque
